import Mathlib

/-!
The program netcat (OpenBSD nc, macOS port): a shallow embedding of `netcat.c`.

The definitions below follow `src/netcat.c` function by function.  C strings
are `String`s (their characters are the bytes before the terminating NUL),
`int` values are `Int`, bytes are `Nat`, and everything the program obtains from
the operating system (resolver answers, `random()`, `poll`, `read`, the result
of a connect attempt) is an explicit argument.
-/

namespace Netcat

/-! ## Constants and elementary C library behaviour -/

/-- Highest port number: `#define PORT_MAX 65535`. -/
def PORT_MAX : Nat := 65535

/-- Size of a port token buffer: `#define PORT_MAX_LEN 6`. -/
def PORT_MAX_LEN : Nat := 6

/-- Result code `#define CONNECTION_SUCCESS 0`. -/
def CONNECTION_SUCCESS : Int := 0

/-- Result code `#define CONNECTION_FAILED 1`. -/
def CONNECTION_FAILED : Int := 1

/-- Result code `#define CONNECTION_TIMEOUT 2`. -/
def CONNECTION_TIMEOUT : Int := 2

/-- The constant `INT_MAX` of `<limits.h>` for a 32-bit `int`. -/
def INT_MAX : Int := 2147483647

/-- Width in bits of `unsigned long` on the LP64 targets this port builds for. -/
def ULONG_BITS : Nat := 64

/-- The constant `ULONG_MAX` of `<limits.h>`. -/
def ULONG_MAX : Nat := 2 ^ ULONG_BITS - 1

/-- The `isspace` class of the C locale. -/
def isspace (c : Char) : Bool :=
  c == ' ' || c == '\t' || c == '\n' || c == '\x0b' || c == '\x0c' || c == '\r'

/-- Value of one decimal digit character. -/
def digitVal (c : Char) : Nat := c.toNat - 48

/-- Value of a run of decimal digits, most significant first. -/
def decValue (ds : List Char) : Nat :=
  ds.foldl (fun acc c => acc * 10 + digitVal c) 0

/-- The C library call `strtoul(nptr, &endp, 10)`: skips white space, takes an
optional sign and the longest run of decimal digits.  Returns the converted
`unsigned long` together with the unparsed tail `endp` points at.  Without any
digit nothing is converted: the value is 0 and `endp` is `nptr`.  A value that
does not fit is clamped to `ULONG_MAX`; a leading minus negates modulo
`2 ^ ULONG_BITS`. -/
def strtoul (nptr : List Char) : Nat × List Char :=
  let t := nptr.dropWhile isspace
  let signed : Bool × List Char :=
    match t with
    | '-' :: r => (true, r)
    | '+' :: r => (false, r)
    | _ => (false, t)
  let ds := signed.2.takeWhile Char.isDigit
  let endp := signed.2.dropWhile Char.isDigit
  if ds.isEmpty then (0, nptr)
  else if ULONG_MAX < decValue ds then (ULONG_MAX, endp)
  else if signed.1 then ((2 ^ ULONG_BITS - decValue ds) % 2 ^ ULONG_BITS, endp)
  else (decValue ds, endp)

/-- The cast `(int)` applied to an `unsigned long`: the low 32 bits, read as a
two's complement number. -/
def toInt (v : Nat) : Int :=
  if v % 2 ^ 32 < 2 ^ 31 then ((v % 2 ^ 32 : Nat) : Int)
  else ((v % 2 ^ 32 : Nat) : Int) - 2 ^ 32

/-- The call `snprintf(dst, size, "%d", v)` for a non-negative `v`: the decimal rendering,
cut to the `size - 1` characters that fit before the terminating NUL. -/
def snprintf (size : Nat) (v : Nat) : String :=
  String.mk ((Nat.repr v).data.take (size - 1))

/-! ## Command line flags and failures -/

/-- The global option variables of `netcat.c` that the embedded functions read. -/
structure Flags where
  Cflag : Bool := false
  dflag : Bool := false
  iflag : Int := 0
  jflag : Bool := false
  lflag : Bool := false
  nflag : Bool := false
  qflag : Int := -1
  rflag : Bool := false
  tflag : Bool := false
  uflag : Bool := false
  vflag : Bool := false
  xflag : Bool := false
  zflag : Bool := false
  timeout : Int := -1
  deriving Repr, DecidableEq

/-- Ways a call can end without returning: `err(1, ...)` or `errx(1, msg)`, or an integer
division by zero (undefined behaviour in C, a trap on the supported CPUs). -/
inductive Fault where
  | errx (msg : String)
  | div_by_zero
  deriving Repr, DecidableEq

/-! ## build_ports -/

/-- The global `char *portlist[PORT_MAX + 1]` at program start: all NULL. -/
def portlist0 : List (Option String) := List.replicate (PORT_MAX + 1) none

/-- The loop `for (cp = lo; cp <= hi; cp++) { portlist[x] = ...; x++; }` with
`n` iterations left ("Load ports sequentially"). -/
def loadPorts : Nat → Nat → Nat → List (Option String) → List (Option String)
  | 0, _, _, pl => pl
  | n + 1, cp, x, pl =>
      loadPorts n (cp + 1) (x + 1) (pl.set x (some (snprintf PORT_MAX_LEN cp)))

/-- The loop `for (x = 0; x <= (hi - lo); x++)` of "Randomly swap ports" with `n`
iterations left; `d` is `hi - lo` and `rnd x` is what the call of `random()` in
iteration `x` returns.  `y = (random() & 0xFFFF) % (hi - lo)` divides by zero
when `hi = lo`. -/
def swapPorts (d : Nat) (rnd : Nat → Nat) :
    Nat → Nat → List (Option String) → Except Fault (List (Option String))
  | 0, _, pl => .ok pl
  | n + 1, x, pl =>
      if d = 0 then .error .div_by_zero
      else
        let y := (rnd x % 65536) % d
        let c := pl.getD x none
        let pl1 := pl.set x (pl.getD y none)
        let pl2 := pl1.set y c
        swapPorts d rnd n (x + 1) pl2

/-- Splits at the first occurrence of `-`, as `strchr(p, '-')` followed by
`*n = '\0'; n++` does: `none` when there is no `-`. -/
def splitDash : List Char → Option (List Char × List Char)
  | [] => none
  | c :: cs =>
      if c = '-' then some ([], cs)
      else (splitDash cs).map (fun r => (c :: r.1, r.2))

/-- The function `build_ports(p)`.  `getservbyname p` is the host-order port
`ntohs(sv->s_port)` when the services database knows `p` for the protocol in
use, `rnd` the stream of `random()` results.  Returns the contents of
`portlist[]`.  Allocation is taken to succeed. -/
def build_ports (fl : Flags) (getservbyname : String → Option Nat) (rnd : Nat → Nat)
    (p : String) : Except Fault (List (Option String)) :=
  match getservbyname p with
  | some port => .ok (portlist0.set 0 (some (snprintf PORT_MAX_LEN port)))
  | none =>
    match splitDash p.data with
    | some (ps, n) =>
      if fl.lflag then .error (.errx "Cannot use -l with multiple ports!")
      else
        let hi := toInt (strtoul n).1
        if hi ≤ 0 ∨ hi > PORT_MAX ∨ (strtoul n).2 ≠ [] then
          .error (.errx "port range not valid")
        else
          let lo := toInt (strtoul ps).1
          if lo ≤ 0 ∨ lo > PORT_MAX ∨ (strtoul ps).2 ≠ [] then
            .error (.errx "port range not valid")
          else
            let hi1 := if lo > hi then lo else hi
            let lo1 := if lo > hi then hi else lo
            let pl := loadPorts (hi1.toNat + 1 - lo1.toNat) lo1.toNat 0 portlist0
            if fl.rflag then
              swapPorts (hi1.toNat - lo1.toNat) rnd (hi1.toNat - lo1.toNat + 1) 0 pl
            else .ok pl
    | none =>
      let hi := toInt (strtoul p.data).1
      if hi ≤ 0 ∨ hi > PORT_MAX ∨ (strtoul p.data).2 ≠ [] then
        .error (.errx "port range not valid")
      else .ok (portlist0.set 0 (some p))

/-! ## The -w option of main -/

/-- The `case 'w'` arm of the option switch in `main`, applied to `optarg`:
the stored `timeout` in milliseconds, or the `errx` it ends with.  The
product cannot overflow an `int`: the second check leaves `timeout` at most
`INT_MAX / 1000 - 1`. -/
def main_opt_w (optarg : String) : Except Fault Int :=
  let timeout := toInt (strtoul optarg.data).1
  if timeout < 0 ∨ (strtoul optarg.data).2 ≠ [] then
    .error (.errx "timeout cannot be negative")
  else if timeout ≥ INT_MAX / 1000 then .error (.errx "timeout too large")
  else .ok (timeout * 1000)

/-! ## atelnet -/

/-- Telnet command bytes of `<arpa/telnet.h>`. -/
def IAC : Nat := 255

/-- Telnet `DONT`. -/
def DONT : Nat := 254

/-- Telnet `DO`. -/
def DO : Nat := 253

/-- Telnet `WONT`. -/
def WONT : Nat := 252

/-- Telnet `WILL`. -/
def WILL : Nat := 251

/-- The `for (p = buf; p < end; p++)` loop of `atelnet`, with `p` an index into
the memory `buf` and `size` the index of `end`.  `obuf1` is the current content
of `obuf[1]`, which the body overwrites only for the four request codes.  The
result lists the three-byte buffers handed to `atomicio(vwrite, nfd, obuf, 3)`,
in order.  The first argument bounds the number of passes; every pass advances
`p` by three, so `size` passes always suffice. -/
def atelnet_loop (buf : Nat → Nat) (size : Nat) : Nat → Nat → Nat → List (List Nat)
  | 0, _, _ => []
  | fuel + 1, p, obuf1 =>
      if p < size then
        if buf p ≠ IAC then []
        else
          let r := buf (p + 1)
          let o1 := if r = WILL ∨ r = WONT then DONT else obuf1
          let o2 := if r = DO ∨ r = DONT then WONT else o1
          [IAC, o2, buf (p + 2)] :: atelnet_loop buf size fuel (p + 3) o2
      else []

/-- The function `atelnet(nfd, buf, size)`: the replies it writes to `nfd`.
`obuf1` is the indeterminate initial content of `obuf[1]`. -/
def atelnet (buf : Nat → Nat) (size : Nat) (obuf1 : Nat) : List (List Nat) :=
  atelnet_loop buf size size 0 obuf1

/-! ## readwrite -/

/-- Modelled from the spec: `atomicio(vwrite, fd, buf, n)` of `atomicio.c`, which
is not under src/ ("an all-or-nothing write that must not return a short
write").  `room` is the number of bytes the descriptor still accepts before a
write fails.  Returns the call's result (`n` exactly when everything was
written), the bytes that reached the descriptor, and the room left. -/
def atomicio (room : Nat) (bytes : List Nat) : Nat × List Nat × Nat :=
  if bytes.length ≤ room then (bytes.length, bytes, room - bytes.length)
  else (room, bytes.take room, 0)

/-- The `revents` bits of a `struct pollfd` that `readwrite` tests. -/
structure Revents where
  pollin : Bool := false
  pollhup : Bool := false
  deriving Repr, DecidableEq

/-- Result of a `read(fd, buf, plen)`: an error (`n < 0`) or the bytes stored
into `buf` (`n` is their number; none at end-of-file). -/
inductive ReadResult where
  | error
  | got (bytes : List Nat)
  deriving Repr, DecidableEq

/-- What the operating system reports during one pass of the `readwrite` loop:
the value `poll` returns, the `revents` it stores for the two descriptors, the
result of each `read` should the pass issue it, and for each output descriptor
whether a write that fails during the pass fails with `EPIPE` (the reader is
gone).  Such a write raises `SIGPIPE`, whose disposition `netcat.c` never
changes, so it ends the process; a write failing otherwise returns an error. -/
structure RWEvent where
  pollRet : Int := 1
  net : Revents := {}
  stdin : Revents := {}
  netRead : ReadResult := .got []
  stdinRead : ReadResult := .got []
  netEpipe : Bool := false
  outEpipe : Bool := false
  deriving Repr, DecidableEq

/-- State of a `readwrite` call: the `fd` fields of `pfd[0]` (network) and
`pfd[1]` (standard input), the contents of `buf`, and the effects so far: bytes
written to the network and to standard output, whether `shutdown(nfd, SHUT_RD)`
and `shutdown(nfd, SHUT_WR)` were called, the pending `alarm`, whether `nfd` was
closed, and how many bytes each output descriptor still accepts. -/
structure RWState where
  pfd0_fd : Int
  pfd1_fd : Int
  buf : Nat → Nat
  netOut : List Nat := []
  stdOut : List Nat := []
  shutRd : Bool := false
  shutWr : Bool := false
  alarm : Option Int := none
  closed : Bool := false
  netRoom : Nat
  outRoom : Nat

/-- How one pass of the loop body ends: at the loop test, by `return`, in
`err(1, "Polling Error")`, or with the process killed by `SIGPIPE` during a
write. -/
inductive RWStep where
  | next (s : RWState)
  | ret (s : RWState)
  | fatal (s : RWState)
  | killed (s : RWState)

/-- The memory `buf` after a `read` stored `bytes` at its start. -/
def storeChunk (buf : Nat → Nat) (bytes : List Nat) : Nat → Nat :=
  fun i => if i < bytes.length then bytes.getD i 0 else buf i

/-- The first `n` bytes of `buf`. -/
def bufBytes (buf : Nat → Nat) (n : Nat) : List Nat := (List.range n).map buf

/-- The value of `revents` after `poll`: zero for an entry whose `fd` is negative. -/
def polled (fd : Int) (r : Revents) : Revents := if fd < 0 then {} else r

/-- The chunk size `plen = jflag ? 8192 : 1024`. -/
def plen (fl : Flags) : Nat := if fl.jflag then 8192 else 1024

/-- The writes of `atelnet` sent through `atomicio` one after the other (a
failed one only warns): bytes that reached the network and room left. -/
def sendReplies : List (List Nat) → List Nat → Nat → List Nat × Nat
  | [], out, room => (out, room)
  | r :: rs, out, room =>
      sendReplies rs (out ++ (atomicio room r).2.1) (atomicio room r).2.2

/-- Whether one of the writes of `atelnet`, sent through `atomicio` one after the
other, fails, given the room on the network. -/
def repliesFail : List (List Nat) → Nat → Bool
  | [], _ => false
  | r :: rs, room =>
      decide ((atomicio room r).1 ≠ r.length) || repliesFail rs (atomicio room r).2.2

/-- The label `shutdown_rd:` of `readwrite`. -/
def shutdown_rd (s : RWState) : RWState :=
  { s with shutRd := true, pfd0_fd := -1 }

/-- The label `shutdown_wr:` of `readwrite`: arm the quit timer when `qflag > 0`,
else shut down the write half; then stop polling standard input. -/
def shutdown_wr (fl : Flags) (s : RWState) : RWState :=
  if fl.qflag > 0 then { s with alarm := some fl.qflag, pfd1_fd := -1 }
  else { s with shutWr := true, pfd1_fd := -1 }

/-- The network half of the loop body: `if (pfd[0].revents & POLLIN) ... else if
(pfd[0].revents & POLLHUP) ...`.  `obuf1` is the indeterminate `obuf[1]` of the
`atelnet` call.  A failing write of `atelnet` only warns, and a failing write to
standard output returns, unless it fails with `EPIPE`: then `SIGPIPE` ends the
process (after a failed write to the network no further byte reaches it, so the
bytes `sendReplies` reports are those sent up to the failure). -/
def readwrite_net (fl : Flags) (obuf1 : Nat) (ev : RWEvent) (s : RWState) : RWStep :=
  if (polled s.pfd0_fd ev.net).pollin then
    match ev.netRead with
    | .error => .ret s
    | .got bytes0 =>
      let bytes := bytes0.take (plen fl)
      let n := bytes.length
      if n = 0 then .next (shutdown_rd s)
      else
        let buf := storeChunk s.buf bytes
        let sent :=
          if fl.tflag then sendReplies (atelnet buf n obuf1) s.netOut s.netRoom
          else (s.netOut, s.netRoom)
        if fl.tflag ∧ ev.netEpipe ∧ repliesFail (atelnet buf n obuf1) s.netRoom then
          .killed { s with buf := buf, netOut := sent.1, netRoom := sent.2 }
        else
          let w := atomicio s.outRoom (bufBytes buf n)
          let s1 := { s with buf := buf, netOut := sent.1, netRoom := sent.2,
                             stdOut := s.stdOut ++ w.2.1, outRoom := w.2.2 }
          if w.1 ≠ n then (if ev.outEpipe then .killed s1 else .ret s1) else .next s1
  else if (polled s.pfd0_fd ev.net).pollhup then .next (shutdown_rd s)
  else .next s

/-- The standard input half of the loop body, `if (!dflag) { ... }`.  A failing
write to the network returns, unless it fails with `EPIPE`: then `SIGPIPE` ends
the process. -/
def readwrite_stdin (fl : Flags) (ev : RWEvent) (s : RWState) : RWStep :=
  if fl.dflag then .next s
  else if (polled s.pfd1_fd ev.stdin).pollin then
    match ev.stdinRead with
    | .error => .ret s
    | .got bytes0 =>
      let bytes := bytes0.take (plen fl)
      let n := bytes.length
      if n = 0 then .next (shutdown_wr fl s)
      else
        let buf := storeChunk s.buf bytes
        if fl.Cflag ∧ buf (n - 1) = 10 then
          let w1 := atomicio s.netRoom (bufBytes buf (n - 1))
          let s1 := { s with buf := buf, netOut := s.netOut ++ w1.2.1, netRoom := w1.2.2 }
          if w1.1 ≠ n - 1 then (if ev.netEpipe then .killed s1 else .ret s1)
          else
            let w2 := atomicio s1.netRoom [13, 10]
            let s2 := { s1 with netOut := s1.netOut ++ w2.2.1, netRoom := w2.2.2 }
            if w2.1 ≠ 2 then (if ev.netEpipe then .killed s2 else .ret s2) else .next s2
        else
          let w := atomicio s.netRoom (bufBytes buf n)
          let s1 := { s with buf := buf, netOut := s.netOut ++ w.2.1, netRoom := w.2.2 }
          if w.1 ≠ n then (if ev.netEpipe then .killed s1 else .ret s1) else .next s1
  else if (polled s.pfd1_fd ev.stdin).pollhup then .next (shutdown_wr fl s)
  else .next s

/-- One pass of the body of `while (pfd[0].fd != -1)`.  The `sleep(iflag)` before
`poll` only passes time. -/
def readwrite_iter (fl : Flags) (obuf1 : Nat) (ev : RWEvent) (s : RWState) : RWStep :=
  if ev.pollRet < 0 then .fatal { s with closed := true }
  else if ev.pollRet = 0 then .ret s
  else
    match readwrite_net fl obuf1 ev s with
    | .next s1 => readwrite_stdin fl ev s1
    | r => r

/-- How a `readwrite` call stands after the events supplied: it has returned, it
has ended the process in `err`, it is waiting in `poll` for more, or the process
was killed by `SIGPIPE`. -/
inductive RWResult where
  | returned (s : RWState)
  | fatal (s : RWState)
  | waiting (s : RWState)
  | killed (s : RWState)

/-- The loop `while (pfd[0].fd != -1) { ... }` run on a list of events. -/
def readwrite_loop (fl : Flags) (obuf1 : Nat) : List RWEvent → RWState → RWResult
  | [], s => if s.pfd0_fd ≠ -1 then .waiting s else .returned s
  | ev :: evs, s =>
      if s.pfd0_fd ≠ -1 then
        match readwrite_iter fl obuf1 ev s with
        | .next s1 => readwrite_loop fl obuf1 evs s1
        | .ret s1 => .returned s1
        | .fatal s1 => .fatal s1
        | .killed s1 => .killed s1
      else .returned s

/-- The function `readwrite(nfd)`: descriptor set-up, then the loop.  `wfd` is
`fileno(stdin)`, `buf0` the indeterminate initial content of `buf`. -/
def readwrite (fl : Flags) (obuf1 : Nat) (nfd wfd : Int) (buf0 : Nat → Nat)
    (netRoom outRoom : Nat) (evs : List RWEvent) : RWResult :=
  readwrite_loop fl obuf1 evs
    { pfd0_fd := nfd, pfd1_fd := wfd, buf := buf0, netRoom := netRoom, outRoom := outRoom }

/-- Whether the call has left the loop. -/
def RWResult.terminated : RWResult → Bool
  | .waiting _ => false
  | _ => true

/-- The state a result carries. -/
def RWResult.state : RWResult → RWState
  | .returned s => s
  | .fatal s => s
  | .waiting s => s
  | .killed s => s

/-- What a `readwrite` call has come to when a pass ending as given is followed
by a failing loop test: after `next` the loop is left and the call returns. -/
def RWStep.finish : RWStep → RWResult
  | .next s => .returned s
  | .ret s => .returned s
  | .fatal s => .fatal s
  | .killed s => .killed s

/-! ## remote_connect -/

/-- What the operating system answers for one candidate address of the resolver
result: the descriptor `socket()` returns (`none` when it fails and returns -1),
whether the `bind` to the requested local address and the socket options of
`set_common_sockopts` succeed, and the value `connect_with_timeout` returns. -/
structure Cand where
  sock : Option Nat
  bindOk : Bool := true
  sockoptsOk : Bool := true
  conn : Int
  deriving Repr, DecidableEq

/-- The calls of `remote_connect` that concern a candidate: `socket` and
`connect_with_timeout` for the candidate at a position of the resolver list, and
`close` of a descriptor. -/
inductive SysCall where
  | socket (i : Nat)
  | connect (i : Nat) (fd : Nat)
  | close (fd : Nat)
  deriving Repr, DecidableEq

/-- The `do { ... } while ((res0 = res0->ai_next) != NULL)` loop of
`remote_connect` over the candidates from `res0` on, `i` being the position of
`res0` and `s` the current value of the variable `s`; the loop is entered on a
non-empty list, and reaching the end of the list leaves it.  `localBind` is
`sflag || pflag`.  Returns the final `s` and the calls made. -/
def remote_connect_loop (localBind : Bool) :
    List Cand → Nat → Int → List SysCall → Except Fault (Int × List SysCall)
  | [], _, s, tr => .ok (s, tr)
  | c :: rest, i, _, tr =>
    match c.sock with
    | none => remote_connect_loop localBind rest (i + 1) (-1) (tr ++ [.socket i])
    | some fd =>
      if localBind ∧ c.bindOk = false then .error (.errx "bind failed")
      else if c.sockoptsOk = false then .error (.errx "setsockopt")
      else if c.conn = CONNECTION_SUCCESS then
        .ok ((fd : Int), tr ++ [.socket i, .connect i fd])
      else
        remote_connect_loop localBind rest (i + 1) (-1)
          (tr ++ [.socket i, .connect i fd, .close fd])

/-- The function `remote_connect(host, port, hints)` on the resolver result
`getaddrinfo` stored in `res`: `none` when resolution fails, else the candidates
in resolver order (never empty). -/
def remote_connect (localBind : Bool) (res : Option (Cand × List Cand)) :
    Except Fault (Int × List SysCall) :=
  match res with
  | none => .error (.errx "getaddrinfo")
  | some (c, rest) => remote_connect_loop localBind (c :: rest) 0 (-1) []

/-! ## The port loop of main -/

/-- What happens for one entry of `portlist`: the descriptor `remote_connect` (or
`socks_connect` under `xflag`) returns, and the value of `udptest(s)` should it be
called. -/
structure PortOutcome where
  s : Int
  udptest : Int := 1
  deriving Repr, DecidableEq

/-- The loop `for (i = 0; portlist[i] != NULL; i++)` of `main` from entry `i` on:
the final `ret`, and the descriptors `readwrite` was called on.  `env i` is the
outcome for `portlist[i]`; the `close` calls do not bear on `ret`. -/
def main_port_loop (fl : Flags) (env : Nat → PortOutcome) :
    List (Option String) → Nat → Int → List Int → Int × List Int
  | [], _, ret, rw => (ret, rw)
  | none :: _, _, ret, rw => (ret, rw)
  | some _ :: rest, i, ret, rw =>
      if (env i).s < 0 then main_port_loop fl env rest (i + 1) ret rw
      else if (fl.vflag ∨ fl.zflag) ∧ fl.uflag ∧ (env i).udptest = -1 then
        main_port_loop fl env rest (i + 1) 1 rw
      else if fl.zflag then main_port_loop fl env rest (i + 1) 0 rw
      else main_port_loop fl env rest (i + 1) 0 (rw ++ [(env i).s])

/-- The exit status of `main` in connect mode over IP (the final `else` branch):
`ret = 1` initially, then the port loop over `portlist`, then `exit(ret)`. -/
def main_connect (fl : Flags) (env : Nat → PortOutcome) (portlist : List (Option String)) :
    Int :=
  (main_port_loop fl env portlist 0 1 []).1

/-! ## Reference behaviour of the candidate loop, as the specification words it -/

/-- A candidate that yields no connection: its socket cannot be created, or the
connect attempt on it does not return `CONNECTION_SUCCESS`. -/
def Cand.fails (c : Cand) : Prop :=
  c.sock = none ∨ c.conn ≠ CONNECTION_SUCCESS

instance (c : Cand) : Decidable c.fails := by
  unfold Cand.fails
  infer_instance

/-- The calls the specification expects for candidates that yield no
connection, tried in order from position `i`: socket creation, and for a created
socket the connect attempt followed by closing that socket. -/
def failedAttempts : Nat → List Cand → List SysCall
  | _, [] => []
  | i, c :: cs =>
      (match c.sock with
        | none => [SysCall.socket i]
        | some fd => [SysCall.socket i, SysCall.connect i fd, SysCall.close fd])
      ++ failedAttempts (i + 1) cs

/-! ## The bytes atelnet reads -/

/-- The indices of `buf` that the loop of `atelnet` dereferences, in order, one
entry per place the body reads: `*p` in the test against `IAC`, `*p` after the
first `p++` (the request code) and `*p` after the second `p++` (the option).
Same control flow and same pass bound as `atelnet_loop`. -/
def atelnet_reads_loop (buf : Nat → Nat) (size : Nat) : Nat → Nat → List Nat
  | 0, _ => []
  | fuel + 1, p =>
      if p < size then
        if buf p ≠ IAC then [p]
        else p :: (p + 1) :: (p + 2) :: atelnet_reads_loop buf size fuel (p + 3)
      else []

/-- The indices of `buf` read by `atelnet(nfd, buf, size)`. -/
def atelnet_reads (buf : Nat → Nat) (size : Nat) : List Nat :=
  atelnet_reads_loop buf size size 0

/-! ## connect_with_timeout -/

/-- The file status flag `O_NONBLOCK` of `<fcntl.h>` (its value on macOS). -/
def O_NONBLOCK : Nat := 4

/-- The error number `EINPROGRESS` of `<errno.h>` (its value on macOS). -/
def EINPROGRESS : Int := 36

/-- The error number `EINTR` of `<errno.h>`. -/
def EINTR : Int := 4

/-- What the operating system answers during one call of `connect_with_timeout`:
the file status flags `fcntl(fd, F_GETFL, 0)` returns, whether
`fcntl(fd, F_SETFL, orig_flags | O_NONBLOCK)` succeeds, the value of `connect`
and the `errno` it leaves, the value and `errno` of each successive `select`,
the value of `getsockopt` and the `SO_ERROR` it stores, and whether the final
`fcntl(fd, F_SETFL, orig_flags)` succeeds. -/
structure ConnEnv where
  flags : Nat
  setOk : Bool := true
  connectRet : Int
  connectErrno : Int := 0
  selects : List (Int × Int) := []
  getsockoptRet : Int := 0
  soError : Int := 0
  restoreOk : Bool := true
  deriving Repr, DecidableEq

/-- How a call of `connect_with_timeout` ends: it returns a result code, it ends
the process in `errx`, or it is still waiting in `select`; each with the file
status flags of the descriptor at that moment.  A waiting call also carries the
timeout in seconds handed to `select` (`none` for a NULL `tvp`). -/
inductive ConnOutcome where
  | returned (code : Int) (flags : Nat)
  | fatal (msg : String) (flags : Nat)
  | waiting (tvp : Option Int) (flags : Nat)
  deriving Repr, DecidableEq

/-- The loop `do { err = select(...); } while (err < 0 && errno == EINTR)` on the
successive results of `select`: the value the loop ends with, `none` while every
result supplied was an interrupted call. -/
def select_loop : List (Int × Int) → Option Int
  | [] => none
  | r :: rest => if r.1 < 0 ∧ r.2 = EINTR then select_loop rest else some r.1

/-- The function `connect_with_timeout(fd, sa, salen, ctimeout)`.  The flags an
outcome carries are `orig_flags | O_NONBLOCK` from the first `fcntl` on, and
`orig_flags` again once the final `fcntl(fd, F_SETFL, orig_flags)` has run and
succeeded. -/
def connect_with_timeout (env : ConnEnv) (ctimeout : Int) : ConnOutcome :=
  let orig_flags := env.flags
  if env.setOk = false then
    if env.connectRet = 0 then .returned CONNECTION_SUCCESS orig_flags
    else .returned CONNECTION_FAILED orig_flags
  else
    let tvp : Option Int := if ctimeout > 0 then some (ctimeout / 1000) else none
    let restored := if env.restoreOk then orig_flags else orig_flags ||| O_NONBLOCK
    if env.connectRet ≠ 0 ∧ env.connectErrno = EINPROGRESS then
      match select_loop env.selects with
      | none => .waiting tvp (orig_flags ||| O_NONBLOCK)
      | some err =>
        if err < 0 then .fatal "select error" (orig_flags ||| O_NONBLOCK)
        else if err = 0 then .returned CONNECTION_TIMEOUT (orig_flags ||| O_NONBLOCK)
        else if env.getsockoptRet < 0 then
          .fatal "getsockopt error" (orig_flags ||| O_NONBLOCK)
        else
          .returned (if env.soError ≠ 0 then CONNECTION_FAILED else CONNECTION_SUCCESS)
            restored
    else
      .returned (if env.connectRet ≠ 0 then CONNECTION_FAILED else CONNECTION_SUCCESS)
        restored

/-! ## Decimal rendering and parsing -/

theorem digitChar_spec (k : Nat) (h : k < 10) :
    digitVal (Nat.digitChar k) = k ∧ (Nat.digitChar k).isDigit = true := by
  interval_cases k <;> decide

theorem toDigitsCore_isDigit (fuel : Nat) : ∀ (n : Nat) (acc : List Char),
    (∀ c ∈ acc, c.isDigit = true) → ∀ c ∈ Nat.toDigitsCore 10 fuel n acc, c.isDigit = true := by
  induction fuel with
  | zero => intro n acc h; simpa [Nat.toDigitsCore] using h
  | succ f ih =>
    intro n acc h
    have hd := (digitChar_spec (n % 10) (Nat.mod_lt _ (by decide))).2
    simp only [Nat.toDigitsCore]
    split
    · intro c hc
      rcases List.mem_cons.1 hc with rfl | hc
      · exact hd
      · exact h c hc
    · apply ih
      intro c hc
      rcases List.mem_cons.1 hc with rfl | hc
      · exact hd
      · exact h c hc

theorem toDigitsCore_value (fuel : Nat) : ∀ (n : Nat) (acc : List Char), n < fuel →
    (Nat.toDigitsCore 10 fuel n acc).foldl (fun a c => a * 10 + digitVal c) 0
      = acc.foldl (fun a c => a * 10 + digitVal c) n := by
  induction fuel with
  | zero => intro n acc h; omega
  | succ f ih =>
    intro n acc h
    have hd := (digitChar_spec (n % 10) (Nat.mod_lt _ (by decide))).1
    simp only [Nat.toDigitsCore]
    split
    · rename_i h0
      have h1 : n % 10 = n := by omega
      rw [List.foldl_cons, Nat.zero_mul, Nat.zero_add, hd, h1]
    · rename_i h0
      rw [ih (n / 10) _ (by omega)]
      simp only [List.foldl, hd]
      congr 1
      omega

theorem toDigits_isDigit (v : Nat) : ∀ c ∈ Nat.toDigits 10 v, c.isDigit = true :=
  toDigitsCore_isDigit _ _ _ (by simp)

theorem decValue_toDigits (v : Nat) : decValue (Nat.toDigits 10 v) = v := by
  unfold decValue Nat.toDigits
  rw [toDigitsCore_value _ _ _ (by omega)]
  rfl


theorem isDigit_not_special (c : Char) (h : c.isDigit = true) :
    c ≠ '-' ∧ c ≠ '+' ∧ isspace c = false := by
  refine ⟨?_, ?_, ?_⟩
  · rintro rfl; revert h; decide
  · rintro rfl; revert h; decide
  · have h1 : 48 ≤ c.val ∧ c.val ≤ 57 := by
      simpa [Char.isDigit] using h
    simp only [isspace, Bool.or_eq_false_iff, beq_eq_false_iff_ne, ne_eq]
    refine ⟨⟨⟨⟨⟨?_, ?_⟩, ?_⟩, ?_⟩, ?_⟩, ?_⟩ <;> (rintro rfl; revert h; decide)

theorem takeWhile_all {α : Type} (p : α → Bool) (l : List α) (h : ∀ c ∈ l, p c = true) :
    l.takeWhile p = l ∧ l.dropWhile p = [] := by
  induction l with
  | nil => simp
  | cons a t ih =>
    have ha := h a (List.mem_cons_self _ _)
    have ht := ih (fun c hc => h c (List.mem_cons_of_mem _ hc))
    simp [List.takeWhile, List.dropWhile, ha, ht.1, ht.2]

/-- On a non-empty run of digits whose value fits, strtoul converts all of it. -/
theorem strtoul_digits (ds : List Char) (hne : ds ≠ []) (hd : ∀ c ∈ ds, c.isDigit = true)
    (hv : decValue ds ≤ ULONG_MAX) : strtoul ds = (decValue ds, []) := by
  obtain ⟨c, t, rfl⟩ := List.exists_cons_of_ne_nil hne
  have hc := isDigit_not_special c (hd c (List.mem_cons_self _ _))
  have htw := takeWhile_all Char.isDigit (c :: t) hd
  have h1 : (c :: t).dropWhile isspace = c :: t := by simp [List.dropWhile, hc.2.2]
  unfold strtoul
  rw [h1]
  have h2 : (match c :: t with
      | '-' :: r => (true, r)
      | '+' :: r => (false, r)
      | _ => (false, c :: t) : Bool × List Char) = (false, c :: t) := by
    split
    · rename_i heq; simp at heq; exact absurd heq.1 hc.1
    · rename_i heq; simp at heq; exact absurd heq.1 hc.2.1
    · rfl
  simp only [h2, htw.1, htw.2]
  simp [Nat.not_lt.2 hv]


/-! ## build_ports -/

theorem repr_data (v : Nat) : (Nat.repr v).data = Nat.toDigits 10 v := rfl

theorem splitDash_digits (ds : List Char) (hd : ∀ c ∈ ds, c.isDigit = true) :
    splitDash ds = none := by
  induction ds with
  | nil => rfl
  | cons c t ih =>
    have hc := (isDigit_not_special c (hd c (List.mem_cons_self _ _))).1
    simp [splitDash, hc, ih (fun c hc => hd c (List.mem_cons_of_mem _ hc))]

theorem splitDash_append (as bs : List Char) (hd : ∀ c ∈ as, c.isDigit = true) :
    splitDash (as ++ '-' :: bs) = some (as, bs) := by
  induction as with
  | nil => simp [splitDash]
  | cons c t ih =>
    have hc := (isDigit_not_special c (hd c (List.mem_cons_self _ _))).1
    simp [splitDash, hc, ih (fun c hc => hd c (List.mem_cons_of_mem _ hc))]

theorem toInt_small (v : Nat) (h : v < 2 ^ 31) : toInt v = (v : Int) := by
  unfold toInt
  have h1 : v % 2 ^ 32 = v := Nat.mod_eq_of_lt (by omega)
  rw [h1, if_pos h]

/-- The decimal rendering of a port number passes the numeric check of
build_ports unchanged. -/
theorem strtoul_repr (v : Nat) (h1 : 1 ≤ v) (h2 : v ≤ 65535) :
    strtoul (Nat.toDigits 10 v) = (v, []) := by
  have hv := decValue_toDigits v
  have hne : Nat.toDigits 10 v ≠ [] := by
    intro h0
    rw [h0] at hv
    simp [decValue] at hv
    omega
  rw [strtoul_digits _ hne (toDigits_isDigit v) (by rw [hv]; unfold ULONG_MAX ULONG_BITS; omega), hv]

theorem snprintf_port (v : Nat) (h : v ≤ 65535) : snprintf PORT_MAX_LEN v = Nat.repr v := by
  unfold snprintf PORT_MAX_LEN
  have hl : (Nat.repr v).data.length ≤ 5 := Nat.repr_length v 5 (by decide) (show v < 10 ^ 5 by omega)
  rw [List.take_of_length_le hl]

theorem loadPorts_spec (n : Nat) : ∀ (cp x : Nat) (pl : List (Option String)),
    x + n ≤ pl.length →
    loadPorts n cp x pl
      = pl.take x ++ (List.range' cp n).map (fun v => some (snprintf PORT_MAX_LEN v))
          ++ pl.drop (x + n) := by
  induction n with
  | zero => intro cp x pl _; simp [loadPorts]
  | succ n ih =>
    intro cp x pl h
    rw [loadPorts, ih (cp + 1) (x + 1) _ (by rw [List.length_set]; omega)]
    have hx : x < pl.length := by omega
    have e1 : (pl.set x (some (snprintf PORT_MAX_LEN cp))).take (x + 1)
        = pl.take x ++ [some (snprintf PORT_MAX_LEN cp)] := by
      rw [List.set_eq_take_append_cons_drop, if_pos hx]
      rw [List.take_append_eq_append_take]
      simp [List.length_take, Nat.min_eq_left (Nat.le_of_lt hx)]
    have e2 : (pl.set x (some (snprintf PORT_MAX_LEN cp))).drop (x + 1 + n)
        = pl.drop (x + (n + 1)) := by
      rw [List.drop_set_of_lt _ _ (by omega)]
      congr 1; omega
    rw [e1, e2]
    simp [List.range'_succ]

/-- C2: for the decimal rendering p of an integer in [1, 65535] that is not a
known service name, build_ports leaves portlist holding the single token p
followed only by NULL entries (a port list of length exactly one). -/
theorem build_ports_single_port (fl : Flags) (getservbyname : String → Option Nat)
    (rnd : Nat → Nat) (v : Nat) (h1 : 1 ≤ v) (h2 : v ≤ 65535)
    (hs : getservbyname (Nat.repr v) = none) :
    build_ports fl getservbyname rnd (Nat.repr v)
      = .ok (some (Nat.repr v) :: List.replicate PORT_MAX none) := by
  unfold build_ports
  rw [hs]
  simp only [repr_data, splitDash_digits _ (toDigits_isDigit v), strtoul_repr v h1 h2]
  rw [toInt_small v (by omega)]
  have hc : ¬ ((v : Int) ≤ 0 ∨ (v : Int) > (PORT_MAX : Int) ∨ ([] : List Char) ≠ []) := by
    simp only [PORT_MAX, ne_eq, not_true_eq_false, or_false, Nat.cast_ofNat]
    omega
  rw [if_neg hc]
  rfl

theorem build_ports_single_port_witness :
    build_ports {} (fun _ => none) (fun _ => 0) "8080"
      = .ok (some "8080" :: List.replicate PORT_MAX none) :=
  build_ports_single_port {} (fun _ => none) (fun _ => 0) 8080 (by decide) (by decide) rfl

theorem loadPorts_range (lo hi : Nat) (h1 : 1 ≤ lo) (h2 : lo ≤ hi) (h3 : hi ≤ 65535) :
    loadPorts (hi + 1 - lo) lo 0 portlist0
      = (List.range' lo (hi - lo + 1)).map (fun v => some (Nat.repr v))
          ++ none :: List.replicate (PORT_MAX - 1 - (hi - lo)) none := by
  have hlen : portlist0.length = PORT_MAX + 1 := by simp [portlist0]
  rw [loadPorts_spec _ _ _ _ (by rw [hlen]; unfold PORT_MAX; omega)]
  have hn : hi + 1 - lo = hi - lo + 1 := by omega
  rw [hn]
  have hm : (List.range' lo (hi - lo + 1)).map (fun v => some (snprintf PORT_MAX_LEN v))
      = (List.range' lo (hi - lo + 1)).map (fun v => some (Nat.repr v)) := by
    apply List.map_congr_left
    intro v hv
    have := List.mem_range'_1.1 hv
    rw [snprintf_port v (by omega)]
  rw [hm]
  have hd : List.drop (0 + (hi - lo + 1)) portlist0
      = none :: List.replicate (PORT_MAX - 1 - (hi - lo)) none := by
    unfold portlist0
    rw [List.drop_replicate, ← List.replicate_succ]
    congr 1
    unfold PORT_MAX
    omega
  rw [hd]
  simp

/-- C1: for a range spec a-b (no service name, no listen mode, no randomization)
with a and b decimal renderings of integers in [1, 65535], build_ports fills
portlist with the decimal renderings of min(a,b), min(a,b)+1, ..., max(a,b) in
ascending order, then the NULL terminator (and only NULL entries after it). -/
theorem build_ports_range (fl : Flags) (getservbyname : String → Option Nat)
    (rnd : Nat → Nat) (a b : Nat)
    (ha1 : 1 ≤ a) (ha2 : a ≤ 65535) (hb1 : 1 ≤ b) (hb2 : b ≤ 65535)
    (hl : fl.lflag = false) (hr : fl.rflag = false)
    (hs : getservbyname (Nat.repr a ++ "-" ++ Nat.repr b) = none) :
    build_ports fl getservbyname rnd (Nat.repr a ++ "-" ++ Nat.repr b)
      = .ok ((List.range' (min a b) (max a b - min a b + 1)).map (fun v => some (Nat.repr v))
          ++ none :: List.replicate (PORT_MAX - 1 - (max a b - min a b)) none) := by
  unfold build_ports
  rw [hs]
  have hdata : (Nat.repr a ++ "-" ++ Nat.repr b).data
      = Nat.toDigits 10 a ++ '-' :: Nat.toDigits 10 b := by
    simp [String.data_append, repr_data]
  simp only [hdata, splitDash_append _ _ (toDigits_isDigit a), strtoul_repr a ha1 ha2,
    strtoul_repr b hb1 hb2, hl, hr, Bool.false_eq_true, if_false]
  rw [toInt_small a (by omega), toInt_small b (by omega)]
  have hcb : ¬ ((b : Int) ≤ 0 ∨ (b : Int) > (PORT_MAX : Int) ∨ ([] : List Char) ≠ []) := by
    simp only [PORT_MAX, ne_eq, not_true_eq_false, or_false, Nat.cast_ofNat]
    omega
  have hca : ¬ ((a : Int) ≤ 0 ∨ (a : Int) > (PORT_MAX : Int) ∨ ([] : List Char) ≠ []) := by
    simp only [PORT_MAX, ne_eq, not_true_eq_false, or_false, Nat.cast_ofNat]
    omega
  rw [if_neg hcb, if_neg hca]
  congr 1
  by_cases hab : a ≤ b
  · have hgt : ¬ ((a : Int) > (b : Int)) := by omega
    simp only [if_neg hgt, Int.toNat_ofNat]
    rw [loadPorts_range a b ha1 hab hb2, Nat.min_eq_left hab, Nat.max_eq_right hab]
  · have hgt : (a : Int) > (b : Int) := by omega
    have hba : b ≤ a := by omega
    simp only [if_pos hgt, Int.toNat_ofNat]
    rw [loadPorts_range b a hb1 hba ha2, Nat.min_eq_right hba, Nat.max_eq_left hba]

theorem build_ports_range_witness :
    build_ports {} (fun _ => none) (fun _ => 0) "2000-1998"
      = .ok ([some "1998", some "1999", some "2000"] ++ none :: List.replicate 65532 none) := by
  have h := build_ports_range {} (fun _ => none) (fun _ => 0) 2000 1998
    (by decide) (by decide) (by decide) (by decide) rfl rfl rfl
  have e1 : Nat.repr 2000 ++ "-" ++ Nat.repr 1998 = "2000-1998" := by decide
  have e2 : (List.range' (min 2000 1998) (max 2000 1998 - min 2000 1998 + 1)).map
      (fun v => some (Nat.repr v)) = [some "1998", some "1999", some "2000"] := by decide
  have e3 : PORT_MAX - 1 - (max 2000 1998 - min 2000 1998) = 65532 := by decide
  rw [e1, e2, e3] at h
  exact h

/-- The contents of portlist after the numeric checks of the range branch have
passed for the spec a-b: the sequential load, then the swaps when rflag is set. -/
theorem build_ports_on_range (fl : Flags) (getservbyname : String → Option Nat)
    (rnd : Nat → Nat) (a b : Nat)
    (ha1 : 1 ≤ a) (ha2 : a ≤ 65535) (hb1 : 1 ≤ b) (hb2 : b ≤ 65535)
    (hl : fl.lflag = false)
    (hs : getservbyname (Nat.repr a ++ "-" ++ Nat.repr b) = none) :
    build_ports fl getservbyname rnd (Nat.repr a ++ "-" ++ Nat.repr b)
      = if fl.rflag then
          swapPorts (max a b - min a b) rnd (max a b - min a b + 1) 0
            (loadPorts (max a b + 1 - min a b) (min a b) 0 portlist0)
        else .ok (loadPorts (max a b + 1 - min a b) (min a b) 0 portlist0) := by
  unfold build_ports
  rw [hs]
  have hdata : (Nat.repr a ++ "-" ++ Nat.repr b).data
      = Nat.toDigits 10 a ++ '-' :: Nat.toDigits 10 b := by
    simp [String.data_append, repr_data]
  simp only [hdata, splitDash_append _ _ (toDigits_isDigit a), strtoul_repr a ha1 ha2,
    strtoul_repr b hb1 hb2, hl, Bool.false_eq_true, if_false]
  rw [toInt_small a (by omega), toInt_small b (by omega)]
  have hcb : ¬ ((b : Int) ≤ 0 ∨ (b : Int) > (PORT_MAX : Int) ∨ ([] : List Char) ≠ []) := by
    simp only [PORT_MAX, ne_eq, not_true_eq_false, or_false, Nat.cast_ofNat]
    omega
  have hca : ¬ ((a : Int) ≤ 0 ∨ (a : Int) > (PORT_MAX : Int) ∨ ([] : List Char) ≠ []) := by
    simp only [PORT_MAX, ne_eq, not_true_eq_false, or_false, Nat.cast_ofNat]
    omega
  rw [if_neg hcb, if_neg hca]
  by_cases hab : a ≤ b
  · have hgt : ¬ ((a : Int) > (b : Int)) := by omega
    simp only [if_neg hgt, Int.toNat_ofNat, Nat.min_eq_left hab, Nat.max_eq_right hab]
  · have hgt : (a : Int) > (b : Int) := by omega
    have hba : b ≤ a := by omega
    simp only [if_pos hgt, Int.toNat_ofNat, Nat.min_eq_right hba, Nat.max_eq_left hba]

/-- C3 (failing input): with rflag set, a one-element range v-v makes the swap
loop compute a remainder modulo hi - lo = 0, whatever random() returns:
build_ports does not complete. -/
theorem build_ports_random_single_div_by_zero (fl : Flags)
    (getservbyname : String → Option Nat) (rnd : Nat → Nat) (v : Nat)
    (h1 : 1 ≤ v) (h2 : v ≤ 65535) (hl : fl.lflag = false) (hr : fl.rflag = true)
    (hs : getservbyname (Nat.repr v ++ "-" ++ Nat.repr v) = none) :
    build_ports fl getservbyname rnd (Nat.repr v ++ "-" ++ Nat.repr v)
      = .error .div_by_zero := by
  rw [build_ports_on_range fl getservbyname rnd v v h1 h2 h1 h2 hl hs, hr]
  simp [swapPorts]

theorem build_ports_random_single_div_by_zero_witness :
    build_ports { rflag := true } (fun _ => none) (fun k => 7 * k + 3) "80-80"
      = .error .div_by_zero :=
  build_ports_random_single_div_by_zero { rflag := true } (fun _ => none) (fun k => 7 * k + 3) 80
    (by decide) (by decide) rfl rfl rfl

/-- C4 (failing input): the single-port spec 4294967376 denotes 2^32 + 80, far
above 65535, yet the narrowing to int turns it into 80 before the range check
and build_ports accepts it. -/
theorem build_ports_accepts_4294967376 (fl : Flags) (rnd : Nat → Nat) :
    build_ports fl (fun _ => none) rnd "4294967376"
      = .ok (some "4294967376" :: List.replicate PORT_MAX none) := by
  have hp : strtoul "4294967376".data = (4294967376, []) := by decide
  have hsd : splitDash "4294967376".data = none := by decide
  have hi : toInt 4294967376 = 80 := by decide
  unfold build_ports
  simp only [hsd, hp, hi]
  rfl

/-- C10 (failing input): the -w arguments 4294967297 (2^32 + 1 seconds) and
-4294967295 (a negative number) are both accepted: after the narrowing to int
the stored timeout is 1000 ms. -/
theorem main_opt_w_wraps :
    main_opt_w "4294967297" = .ok 1000 ∧ main_opt_w "-4294967295" = .ok 1000 := by
  have h1 : strtoul "4294967297".data = (4294967297, []) := by decide
  have h2 : strtoul "-4294967295".data = (18446744069414584321, []) := by decide
  have h3 : toInt 4294967297 = 1 := by decide
  have h4 : toInt 18446744069414584321 = 1 := by decide
  constructor
  · unfold main_opt_w
    simp only [h1, h3]
    rfl
  · unfold main_opt_w
    simp only [h2, h4]
    rfl

/-! ## atelnet -/

theorem atelnet_loop_triplets (buf : Nat → Nat) (size : Nat) :
    ∀ (ts : List (Nat × Nat)) (fuel p obuf1 : Nat),
      ts.length ≤ fuel → size = p + 3 * ts.length →
      (∀ t ∈ ts, t.1 = WILL ∨ t.1 = WONT ∨ t.1 = DO ∨ t.1 = DONT) →
      (∀ i, i < 3 * ts.length →
        buf (p + i) = (ts.flatMap (fun t => [IAC, t.1, t.2])).getD i 0) →
      atelnet_loop buf size fuel p obuf1
        = ts.map (fun t => [IAC, if t.1 = WILL ∨ t.1 = WONT then DONT else WONT, t.2]) := by
  intro ts
  induction ts with
  | nil =>
    intro fuel p obuf1 _ hs _ _
    cases fuel with
    | zero => rfl
    | succ f =>
      have : ¬ p < size := by simp at hs; omega
      simp [atelnet_loop, this]
  | cons t ts ih =>
    intro fuel p obuf1 hf hs hr hb
    obtain ⟨r, o⟩ := t
    cases fuel with
    | zero => simp at hf
    | succ f =>
      simp only [List.length_cons] at hf hs hb
      have h0 : buf p = IAC := by simpa using hb 0 (by omega)
      have h1 : buf (p + 1) = r := by simpa using hb 1 (by omega)
      have h2 : buf (p + 2) = o := by simpa using hb 2 (by omega)
      have hps : p < size := by omega
      have hrr := hr (r, o) (List.mem_cons_self _ _)
      simp only at hrr
      have ht := ih f (p + 3)
        (if r = DO ∨ r = DONT then WONT else if r = WILL ∨ r = WONT then DONT else obuf1)
        (by omega) (by omega) (fun t ht => hr t (List.mem_cons_of_mem _ ht))
        (by
          intro i hi
          have := hb (i + 3) (by omega)
          rw [show p + 3 + i = p + (i + 3) by omega, this]
          simp [List.flatMap_cons])
      rw [atelnet_loop, if_pos hps, h0]
      simp only [ne_eq, not_true_eq_false, if_false, h1, h2, List.map_cons]
      rw [ht]
      congr 2
      rcases hrr with h | h | h | h <;> subst h <;> simp [WILL, WONT, DO, DONT]

/-- C6: when the first 3k bytes of the buffer are k negotiation triplets
[IAC, r, o] with every r among WILL, WONT, DO, DONT, atelnet on those 3k bytes
writes exactly the k replies [IAC, c, o] in order, c being DONT for WILL or WONT
and WONT for DO or DONT, and nothing else; k = 1 is the 3-byte buffer
[IAC, r, o] with its single reply. -/
theorem atelnet_triplets (buf : Nat → Nat) (obuf1 : Nat) (ts : List (Nat × Nat))
    (hr : ∀ t ∈ ts, t.1 = WILL ∨ t.1 = WONT ∨ t.1 = DO ∨ t.1 = DONT)
    (hb : ∀ i, i < 3 * ts.length →
      buf i = (ts.flatMap (fun t => [IAC, t.1, t.2])).getD i 0) :
    atelnet buf (3 * ts.length) obuf1
      = ts.map (fun t => [IAC, if t.1 = WILL ∨ t.1 = WONT then DONT else WONT, t.2]) := by
  unfold atelnet
  apply atelnet_loop_triplets buf (3 * ts.length) ts (3 * ts.length) 0 obuf1 (by omega)
    (by omega) hr
  intro i hi
  rw [Nat.zero_add]
  exact hb i hi

theorem atelnet_triplets_witness :
    atelnet (fun i => [255, 251, 1, 255, 253, 3].getD i 0) (3 * 2) 77
      = [[255, 254, 1], [255, 252, 3]] :=
  atelnet_triplets (fun i => [255, 251, 1, 255, 253, 3].getD i 0) 77 [(251, 1), (253, 3)]
    (by decide) (by decide)

/-! ## readwrite -/

theorem bufBytes_storeChunk (buf : Nat → Nat) (c : List Nat) (k : Nat) (hk : k ≤ c.length) :
    bufBytes (storeChunk buf c) k = c.take k := by
  apply List.ext_getElem
  · simp [bufBytes, Nat.min_eq_left hk]
  · intro i h1 h2
    have hi : i < k := by simpa [bufBytes] using h1
    have hic : i < c.length := by omega
    simp [bufBytes, storeChunk, hic, List.getD_eq_getElem?_getD, List.getElem?_eq_getElem hic]

theorem storeChunk_last (buf : Nat → Nat) (c : List Nat) (hne : c ≠ []) :
    storeChunk buf c (c.length - 1) = c.getLast hne := by
  have hpos : 0 < c.length := List.length_pos.2 hne
  have hi : c.length - 1 < c.length := by omega
  simp [storeChunk, hi, List.getD_eq_getElem?_getD, List.getElem?_eq_getElem hi,
    List.getLast_eq_getElem]

theorem atomicio_fits (room : Nat) (bytes : List Nat) (h : bytes.length ≤ room) :
    atomicio room bytes = (bytes.length, bytes, room - bytes.length) := by
  simp [atomicio, h]

/-- C5: in a pass of the readwrite loop whose network half reaches the standard
input half in state s1, when standard input is readable and the read returns a
non-empty chunk c of n bytes that the network accepts, the bytes written to the
network for it are: the first n - 1 bytes of c followed by CR LF when Cflag is
set and the last byte of c is LF; exactly c otherwise.  Nothing goes to standard
output and the loop goes on. -/
theorem readwrite_crlf (fl : Flags) (obuf1 : Nat) (ev : RWEvent) (s s1 : RWState)
    (c : List Nat) (hpoll : 0 < ev.pollRet)
    (hnet : readwrite_net fl obuf1 ev s = .next s1)
    (hd : fl.dflag = false) (hfd : ¬ s1.pfd1_fd < 0) (hin : ev.stdin.pollin = true)
    (hread : ev.stdinRead = .got c) (hne : c ≠ []) (hlen : c.length ≤ plen fl)
    (hroom : c.length + 1 ≤ s1.netRoom) :
    ∃ s2, readwrite_iter fl obuf1 ev s = .next s2
      ∧ s2.netOut = s1.netOut ++
          (if fl.Cflag = true ∧ c.getLast hne = 10 then c.dropLast ++ [13, 10] else c)
      ∧ s2.stdOut = s1.stdOut ∧ s2.pfd0_fd = s1.pfd0_fd ∧ s2.pfd1_fd = s1.pfd1_fd := by
  have hpos : 0 < c.length := List.length_pos.2 hne
  have h1 : ¬ ev.pollRet < 0 := by omega
  have h2 : ¬ ev.pollRet = 0 := by omega
  have htake : c.take (plen fl) = c := List.take_of_length_le hlen
  have hn0 : ¬ c.length = 0 := by omega
  unfold readwrite_iter
  rw [if_neg h1, if_neg h2, hnet]
  simp only
  unfold readwrite_stdin
  simp only [hd, Bool.false_eq_true, if_false, polled, if_neg hfd, hin, if_true, hread, htake,
    if_neg hn0, storeChunk_last _ _ hne]
  by_cases hc : fl.Cflag = true ∧ c.getLast hne = 10
  · rw [if_pos hc, if_pos hc]
    rw [bufBytes_storeChunk _ _ _ (Nat.sub_le _ _)]
    have hl : (c.take (c.length - 1)).length = c.length - 1 := by
      simp [List.length_take]
    rw [atomicio_fits _ _ (by rw [hl]; omega)]
    simp only [hl, ne_eq, not_true_eq_false, if_false]
    rw [atomicio_fits _ _ (by simp; omega)]
    simp [List.dropLast_eq_take]
  · rw [if_neg hc, if_neg hc]
    rw [bufBytes_storeChunk _ _ _ (Nat.le_refl _), List.take_length]
    rw [atomicio_fits _ _ (by omega)]
    simp

theorem readwrite_crlf_witness :
    ∃ s2, readwrite_iter { Cflag := true } 0
        { stdin := { pollin := true }, stdinRead := .got [104, 105, 10] }
        { pfd0_fd := 3, pfd1_fd := 0, buf := fun _ => 0, netRoom := 100, outRoom := 100 }
          = .next s2
      ∧ s2.netOut = [104, 105, 13, 10] := by
  obtain ⟨s2, h, hout, _⟩ := readwrite_crlf { Cflag := true } 0
    { stdin := { pollin := true }, stdinRead := .got [104, 105, 10] }
    { pfd0_fd := 3, pfd1_fd := 0, buf := fun _ => 0, netRoom := 100, outRoom := 100 }
    { pfd0_fd := 3, pfd1_fd := 0, buf := fun _ => 0, netRoom := 100, outRoom := 100 }
    [104, 105, 10] (by decide) rfl rfl (by decide) rfl rfl (by decide) (by decide) (by decide)
  exact ⟨s2, h, by simpa using hout⟩

theorem shutdown_wr_keeps_net (fl : Flags) (s : RWState) :
    (shutdown_wr fl s).pfd0_fd = s.pfd0_fd ∧ (shutdown_wr fl s).shutRd = s.shutRd
      ∧ (shutdown_wr fl s).pfd1_fd = -1 := by
  unfold shutdown_wr
  split <;> exact ⟨rfl, rfl, rfl⟩

/-- The standard input half of a pass never touches the network read side, never
ends in the polling error, and ends with the process killed only on a network
write that fails with EPIPE. -/
theorem readwrite_stdin_keeps_net (fl : Flags) (ev : RWEvent) (s : RWState) :
    (readwrite_stdin fl ev s).finish.state.pfd0_fd = s.pfd0_fd
    ∧ (readwrite_stdin fl ev s).finish.state.shutRd = s.shutRd
    ∧ (readwrite_stdin fl ev s).finish.terminated = true
    ∧ (ev.netEpipe = false → ∃ s1, (readwrite_stdin fl ev s).finish = .returned s1) := by
  have hw := shutdown_wr_keeps_net fl s
  unfold readwrite_stdin
  cases ev.stdinRead with
  | error =>
    simp only
    split_ifs <;>
      first
      | exact ⟨rfl, rfl, rfl, fun _ => ⟨_, rfl⟩⟩
      | exact ⟨hw.1, hw.2.1, rfl, fun _ => ⟨_, rfl⟩⟩
  | got bytes0 =>
    simp only
    split_ifs with h1 h2 h3 h4 h5 h6 h7 h8 h9 h10 <;>
      first
      | exact ⟨rfl, rfl, rfl, fun _ => ⟨_, rfl⟩⟩
      | exact ⟨hw.1, hw.2.1, rfl, fun _ => ⟨_, rfl⟩⟩
      | exact ⟨rfl, rfl, rfl, fun h => by simp_all⟩

theorem readwrite_loop_done (fl : Flags) (obuf1 : Nat) (evs : List RWEvent) (s : RWState)
    (h : s.pfd0_fd = -1) : readwrite_loop fl obuf1 evs s = .returned s := by
  cases evs <;> simp [readwrite_loop, h]

/-- A pass in which the network read returns end-of-file is the last one: what
readwrite comes to is what the standard input half of that pass leaves,
whatever events follow. -/
theorem readwrite_loop_net_eof (fl : Flags) (obuf1 : Nat) (ev : RWEvent)
    (evs : List RWEvent) (s : RWState) (hloop : s.pfd0_fd ≠ -1) (hpoll : 0 < ev.pollRet)
    (hin : (polled s.pfd0_fd ev.net).pollin = true) (hread : ev.netRead = .got []) :
    readwrite_loop fl obuf1 (ev :: evs) s = (readwrite_stdin fl ev (shutdown_rd s)).finish := by
  have h1 : ¬ ev.pollRet < 0 := by omega
  have h2 : ¬ ev.pollRet = 0 := by omega
  have hnet : readwrite_net fl obuf1 ev s = .next (shutdown_rd s) := by
    unfold readwrite_net
    simp [hin, hread]
  have hk := (readwrite_stdin_keeps_net fl ev (shutdown_rd s)).1
  rw [readwrite_loop, if_pos hloop]
  unfold readwrite_iter
  rw [if_neg h1, if_neg h2, hnet]
  simp only
  cases hst : readwrite_stdin fl ev (shutdown_rd s) with
  | next s1 =>
    rw [hst] at hk
    exact readwrite_loop_done fl obuf1 evs s1 hk
  | ret s1 => rfl
  | fatal s1 => rfl
  | killed s1 => rfl

/-- C7 (as amended): in a pass of the readwrite loop (poll reports something),
(1) a network read that returns end-of-file makes that pass the last one: the
call comes to exactly what the standard input half of that pass leaves after
the read half is shut down and pfd[0].fd set to -1, so local input is serviced
at most once more and no later event is read, whatever the state of local
input; the loop has terminated, and the call has returned unless a network write
of that pass failed with EPIPE (SIGPIPE then ends the process); (2) with
standard input attached, end-of-file on local input while the network reports
nothing leaves the loop running on the following events, the network still
polled and local input no longer polled. -/
theorem readwrite_eof_termination (fl : Flags) (obuf1 : Nat) (ev : RWEvent)
    (evs : List RWEvent) (s : RWState) (hloop : s.pfd0_fd ≠ -1) (hpoll : 0 < ev.pollRet) :
    ((polled s.pfd0_fd ev.net).pollin = true → ev.netRead = .got [] →
      readwrite_loop fl obuf1 (ev :: evs) s = (readwrite_stdin fl ev (shutdown_rd s)).finish
        ∧ readwrite_loop fl obuf1 (ev :: evs) s = readwrite_loop fl obuf1 [ev] s
        ∧ (readwrite_loop fl obuf1 (ev :: evs) s).terminated = true
        ∧ (readwrite_loop fl obuf1 (ev :: evs) s).state.pfd0_fd = -1
        ∧ (readwrite_loop fl obuf1 (ev :: evs) s).state.shutRd = true
        ∧ (ev.netEpipe = false → ∃ s1, readwrite_loop fl obuf1 (ev :: evs) s = .returned s1))
    ∧ (fl.dflag = false → polled s.pfd0_fd ev.net = {} →
        (polled s.pfd1_fd ev.stdin).pollin = true → ev.stdinRead = .got [] →
      readwrite_loop fl obuf1 (ev :: evs) s = readwrite_loop fl obuf1 evs (shutdown_wr fl s)
        ∧ (shutdown_wr fl s).pfd0_fd = s.pfd0_fd ∧ (shutdown_wr fl s).pfd1_fd = -1
        ∧ readwrite_loop fl obuf1 [ev] s = .waiting (shutdown_wr fl s)) := by
  have h1 : ¬ ev.pollRet < 0 := by omega
  have h2 : ¬ ev.pollRet = 0 := by omega
  constructor
  · intro hin hread
    have hk := readwrite_stdin_keeps_net fl ev (shutdown_rd s)
    have he := readwrite_loop_net_eof fl obuf1 ev evs s hloop hpoll hin hread
    have he1 := readwrite_loop_net_eof fl obuf1 ev [] s hloop hpoll hin hread
    refine ⟨he, by rw [he, he1], ?_, ?_, ?_, ?_⟩
    · rw [he]; exact hk.2.2.1
    · rw [he, hk.1]; rfl
    · rw [he, hk.2.1]; rfl
    · intro hp
      rw [he]
      exact hk.2.2.2 hp
  · intro hd hnone hin hread
    have hnet : readwrite_net fl obuf1 ev s = .next s := by
      unfold readwrite_net
      simp [hnone]
    have hst : readwrite_stdin fl ev s = .next (shutdown_wr fl s) := by
      unfold readwrite_stdin
      simp [hd, hin, hread]
    have hp0 : (shutdown_wr fl s).pfd0_fd = s.pfd0_fd := (shutdown_wr_keeps_net fl s).1
    have hp1 : (shutdown_wr fl s).pfd1_fd = -1 := (shutdown_wr_keeps_net fl s).2.2
    have hstep : ∀ l, readwrite_loop fl obuf1 (ev :: l) s
        = readwrite_loop fl obuf1 l (shutdown_wr fl s) := by
      intro l
      rw [readwrite_loop, if_pos hloop]
      unfold readwrite_iter
      rw [if_neg h1, if_neg h2, hnet]
      simp only
      rw [hst]
    refine ⟨hstep evs, hp0, hp1, ?_⟩
    rw [hstep []]
    simp [readwrite_loop, hp0, hloop]

theorem readwrite_eof_termination_witness :
    (readwrite_loop {} 0
        [{ net := { pollin := true }, netRead := .got [] },
         { stdin := { pollin := true }, stdinRead := .got [104, 105] }]
        { pfd0_fd := 3, pfd1_fd := 0, buf := fun _ => 0, netRoom := 100, outRoom := 100 }
      = readwrite_loop {} 0 [{ net := { pollin := true }, netRead := .got [] }]
        { pfd0_fd := 3, pfd1_fd := 0, buf := fun _ => 0, netRoom := 100, outRoom := 100 }
      ∧ ∃ s1, readwrite_loop {} 0
        [{ net := { pollin := true }, netRead := .got [] },
         { stdin := { pollin := true }, stdinRead := .got [104, 105] }]
        { pfd0_fd := 3, pfd1_fd := 0, buf := fun _ => 0, netRoom := 100, outRoom := 100 }
          = .returned s1)
    ∧ (readwrite_loop {} 0 [{ stdin := { pollin := true }, stdinRead := .got [] }]
        { pfd0_fd := 3, pfd1_fd := 0, buf := fun _ => 0, netRoom := 100, outRoom := 100 }
        = .waiting (shutdown_wr {}
            { pfd0_fd := 3, pfd1_fd := 0, buf := fun _ => 0, netRoom := 100, outRoom := 100 })) :=
  ⟨⟨((readwrite_eof_termination {} 0 { net := { pollin := true }, netRead := .got [] }
      [{ stdin := { pollin := true }, stdinRead := .got [104, 105] }]
      { pfd0_fd := 3, pfd1_fd := 0, buf := fun _ => 0, netRoom := 100, outRoom := 100 }
      (by decide) (by decide)).1 rfl rfl).2.1,
    ((readwrite_eof_termination {} 0 { net := { pollin := true }, netRead := .got [] }
      [{ stdin := { pollin := true }, stdinRead := .got [104, 105] }]
      { pfd0_fd := 3, pfd1_fd := 0, buf := fun _ => 0, netRoom := 100, outRoom := 100 }
      (by decide) (by decide)).1 rfl rfl).2.2.2.2.2 rfl⟩,
   ((readwrite_eof_termination {} 0 { stdin := { pollin := true }, stdinRead := .got [] } []
      { pfd0_fd := 3, pfd1_fd := 0, buf := fun _ => 0, netRoom := 100, outRoom := 100 }
      (by decide) (by decide)).2 rfl rfl rfl rfl).2.2.2⟩

/-- C7 (counterexample to the claim as stated): the network read returns
end-of-file while local input is open and has never returned end-of-file; the
loop has terminated all the same, standard input is still in the poll set, no
timer is armed and no write shutdown was made, and the local input that arrives
next is not relayed. -/
theorem readwrite_net_eof_counterexample :
    (readwrite {} 0 3 0 (fun _ => 0) 100 100
        [{ net := { pollin := true }, netRead := .got [] },
         { stdin := { pollin := true }, stdinRead := .got [104, 105] }]).terminated = true
    ∧ (readwrite {} 0 3 0 (fun _ => 0) 100 100
        [{ net := { pollin := true }, netRead := .got [] },
         { stdin := { pollin := true }, stdinRead := .got [104, 105] }]).state.pfd1_fd = 0
    ∧ (readwrite {} 0 3 0 (fun _ => 0) 100 100
        [{ net := { pollin := true }, netRead := .got [] },
         { stdin := { pollin := true }, stdinRead := .got [104, 105] }]).state.netOut = []
    ∧ (readwrite {} 0 3 0 (fun _ => 0) 100 100
        [{ stdin := { pollin := true }, stdinRead := .got [104, 105] }]).state.netOut
          = [104, 105] := by
  refine ⟨?_, ?_, ?_, ?_⟩ <;> decide

/-! ## remote_connect -/

theorem remote_connect_loop_failed (pre : List Cand) :
    ∀ (rest : List Cand) (i : Nat) (s : Int) (tr : List SysCall),
      (∀ x ∈ pre, x.fails) → (∀ x ∈ pre, x.sockoptsOk = true) → pre ≠ [] →
      remote_connect_loop false (pre ++ rest) i s tr
        = remote_connect_loop false rest (i + pre.length) (-1) (tr ++ failedAttempts i pre) := by
  induction pre with
  | nil => intro rest i s tr _ _ h; exact absurd rfl h
  | cons x pre ih =>
    intro rest i s tr hf ho _
    have hx := hf x (List.mem_cons_self _ _)
    have hxo := ho x (List.mem_cons_self _ _)
    have hf1 : ∀ y ∈ pre, y.fails := fun y hy => hf y (List.mem_cons_of_mem _ hy)
    have ho1 : ∀ y ∈ pre, y.sockoptsOk = true := fun y hy => ho y (List.mem_cons_of_mem _ hy)
    have hstep : ∀ tr1, remote_connect_loop false (pre ++ rest) (i + 1) (-1) tr1
        = remote_connect_loop false rest (i + (pre.length + 1)) (-1)
            (tr1 ++ failedAttempts (i + 1) pre) := by
      intro tr1
      by_cases hp : pre = []
      · subst hp
        simp [failedAttempts]
      · rw [ih rest (i + 1) (-1) tr1 hf1 ho1 hp]
        congr 1
        omega
    rw [List.cons_append, remote_connect_loop]
    cases hs : x.sock with
    | none =>
      simp only [List.length_cons]
      rw [hstep]
      simp [failedAttempts, hs, List.append_assoc]
    | some fd0 =>
      have hne : ¬ x.conn = CONNECTION_SUCCESS := by
        rcases hx with h | h
        · rw [hs] at h; cases h
        · exact h
      simp only [Bool.false_eq_true, false_and, if_false, hxo, if_neg hne, List.length_cons]
      rw [hstep]
      simp [failedAttempts, hs, List.append_assoc]

/-- C8: without local bind, on a non-empty resolver result c0 :: rest whose
socket options can be set: (1) if the candidates before c all fail (socket
creation fails, or the connect attempt does not return CONNECTION_SUCCESS) and c
gets socket fd and connects, remote_connect returns fd, having tried the
candidates before c in resolver order, closed every socket it had connected
without success, and tried nothing after c; (2) if every candidate fails it
returns -1 after trying all of them in order and closing each created socket. -/
theorem remote_connect_first_success (c0 : Cand) (rest : List Cand) :
    (∀ (pre post : List Cand) (c : Cand) (fd : Nat),
      c0 :: rest = pre ++ c :: post → (∀ x ∈ pre, x.fails) →
      (∀ x ∈ pre, x.sockoptsOk = true) → c.sockoptsOk = true →
      c.sock = some fd → c.conn = CONNECTION_SUCCESS →
      remote_connect false (some (c0, rest))
        = .ok ((fd : Int), failedAttempts 0 pre
            ++ [.socket pre.length, .connect pre.length fd]))
    ∧ ((∀ x ∈ c0 :: rest, x.fails) → (∀ x ∈ c0 :: rest, x.sockoptsOk = true) →
      remote_connect false (some (c0, rest)) = .ok (-1, failedAttempts 0 (c0 :: rest))) := by
  constructor
  · intro pre post c fd heq hf ho hco hsock hconn
    have hlast : ∀ i tr, remote_connect_loop false (c :: post) i (-1) tr
        = .ok ((fd : Int), tr ++ [.socket i, .connect i fd]) := by
      intro i tr
      rw [remote_connect_loop]
      simp [hsock, hconn, hco]
    unfold remote_connect
    simp only
    rw [heq]
    by_cases hp : pre = []
    · subst hp
      simpa [failedAttempts] using hlast 0 []
    · rw [remote_connect_loop_failed pre (c :: post) 0 (-1) [] hf ho hp, hlast]
      simp
  · intro hf ho
    unfold remote_connect
    simp only
    have h := remote_connect_loop_failed (c0 :: rest) [] 0 (-1) [] hf ho (by simp)
    rw [List.append_nil] at h
    rw [h]
    simp [remote_connect_loop]

theorem remote_connect_first_success_witness :
    remote_connect false
        (some ({ sock := some 3, conn := 1 },
          [{ sock := none, conn := 0 }, { sock := some 4, conn := 2 },
           { sock := some 5, conn := 0 }]))
      = .ok (5, [.socket 0, .connect 0 3, .close 3, .socket 1, .socket 2, .connect 2 4,
          .close 4, .socket 3, .connect 3 5])
    ∧ remote_connect false (some ({ sock := some 3, conn := 1 }, [{ sock := some 4, conn := 2 }]))
      = .ok (-1, [.socket 0, .connect 0 3, .close 3, .socket 1, .connect 1 4, .close 4]) :=
  ⟨(remote_connect_first_success { sock := some 3, conn := 1 }
      [{ sock := none, conn := 0 }, { sock := some 4, conn := 2 },
       { sock := some 5, conn := 0 }]).1
      [{ sock := some 3, conn := 1 }, { sock := none, conn := 0 }, { sock := some 4, conn := 2 }]
      [] { sock := some 5, conn := 0 } 5 rfl (by decide) (by decide) rfl rfl rfl,
   (remote_connect_first_success { sock := some 3, conn := 1 }
      [{ sock := some 4, conn := 2 }]).2 (by decide) (by decide)⟩

/-! ## The port loop of main -/

theorem main_port_loop_all_fail (fl : Flags) (env : Nat → PortOutcome)
    (tail : List (Option String)) (toks : List String) :
    ∀ (i : Nat) (ret : Int) (rw : List Int),
      (∀ j, j < toks.length → (env (i + j)).s < 0) →
      main_port_loop fl env (toks.map some ++ none :: tail) i ret rw = (ret, rw) := by
  induction toks with
  | nil => intro i ret rw _; rfl
  | cons t ts ih =>
    intro i ret rw h
    have h0 : (env i).s < 0 := by simpa using h 0 (by simp)
    simp only [List.map_cons, List.cons_append, main_port_loop, if_pos h0]
    apply ih
    intro j hj
    have := h (j + 1) (by simp; omega)
    rwa [show i + 1 + j = i + (j + 1) by omega]

theorem main_port_loop_ret_zero (fl : Flags) (env : Nat → PortOutcome) (hu : fl.uflag = false)
    (pl : List (Option String)) :
    ∀ (i : Nat) (rw : List Int), (main_port_loop fl env pl i 0 rw).1 = 0 := by
  induction pl with
  | nil => intro i rw; rfl
  | cons p ps ih =>
    intro i rw
    cases p with
    | none => rfl
    | some t =>
      simp only [main_port_loop, hu, Bool.false_eq_true, false_and, and_false, if_false]
      split_ifs <;> exact ih _ _

theorem main_port_loop_some_success (fl : Flags) (env : Nat → PortOutcome)
    (hu : fl.uflag = false) (tail : List (Option String)) (toks : List String) :
    ∀ (i : Nat) (ret : Int) (rw : List Int),
      (∃ j, j < toks.length ∧ 0 ≤ (env (i + j)).s) →
      (main_port_loop fl env (toks.map some ++ none :: tail) i ret rw).1 = 0 := by
  induction toks with
  | nil => intro i ret rw h; obtain ⟨j, hj, _⟩ := h; simp at hj
  | cons t ts ih =>
    intro i ret rw h
    obtain ⟨j, hj, hs⟩ := h
    simp only [List.map_cons, List.cons_append, main_port_loop, hu, Bool.false_eq_true,
      false_and, and_false, if_false]
    by_cases h0 : (env i).s < 0
    · rw [if_pos h0]
      cases j with
      | zero => simp at hs; omega
      | succ j1 =>
        apply ih
        refine ⟨j1, by simpa using hj, ?_⟩
        rwa [show i + 1 + j1 = i + (j1 + 1) by omega]
    · rw [if_neg h0]
      split_ifs <;> exact main_port_loop_ret_zero fl env hu _ _ _

/-- C9 (as amended): for a port list holding the tokens toks before its NULL
terminator, the exit code of main's port loop is 1 when every port's connect
attempt fails, with zflag set as without it; over TCP (uflag off) it is 0 as
soon as the connect attempt of at least one port succeeds. -/
theorem main_connect_exit_code (fl : Flags) (env : Nat → PortOutcome) (toks : List String)
    (tail : List (Option String)) :
    ((∀ k, k < toks.length → (env k).s < 0) →
      main_connect fl env (toks.map some ++ none :: tail) = 1)
    ∧ (fl.uflag = false → (∃ k, k < toks.length ∧ 0 ≤ (env k).s) →
      main_connect fl env (toks.map some ++ none :: tail) = 0) := by
  constructor
  · intro h
    unfold main_connect
    rw [main_port_loop_all_fail fl env tail toks 0 1 [] (by simpa using h)]
  · intro hu h
    unfold main_connect
    exact main_port_loop_some_success fl env hu tail toks 0 1 [] (by simpa using h)

theorem main_connect_exit_code_witness :
    main_connect { zflag := true } (fun _ => { s := -1 }) (["80", "81"].map some ++ none :: []) = 1
    ∧ main_connect { zflag := true } (fun k => { s := if k = 1 then 3 else -1 })
        (["80", "81"].map some ++ none :: []) = 0 :=
  ⟨(main_connect_exit_code { zflag := true } (fun _ => { s := -1 }) ["80", "81"] []).1
      (by intro k _; decide),
   (main_connect_exit_code { zflag := true } (fun k => { s := if k = 1 then 3 else -1 })
      ["80", "81"] []).2 rfl ⟨1, by decide, by decide⟩⟩

/-- C9 (counterexample to the claim as stated): scan mode, two ports, both
connect attempts fail: the exit code is 1, not 0. -/
theorem main_connect_scan_all_closed_counterexample :
    main_connect { zflag := true } (fun _ => { s := -1 }) [some "80", some "81", none] = 1
    ∧ main_connect { zflag := true } (fun _ => { s := -1 }) [some "80", some "81", none] ≠ 0 := by
  constructor <;> decide

/-! ## The random swaps of build_ports on ranges of two or more ports -/

theorem swap_perm (l : List (Option String)) (i j : Nat) (hi : i < l.length)
    (hj : j < l.length) :
    ((l.set i (l.getD j none)).set j (l.getD i none)).Perm l := by
  have e1 : l.getD j none = l[j] := by
    simp [List.getD_eq_getElem?_getD, List.getElem?_eq_getElem hj]
  have e2 : l.getD i none = l[i] := by
    simp [List.getD_eq_getElem?_getD, List.getElem?_eq_getElem hi]
  rw [e1, e2, List.perm_iff_count]
  intro b
  have hj1 : j < (l.set i l[j]).length := by simpa using hj
  have e3 : (l.set i l[j])[j] = l[j] := by
    rw [List.getElem_set]
    split <;> rfl
  have c1 := @List.count_set (Option String) instBEqOfDecidableEq l[i] b (l.set i l[j]) j hj1
  have c2 := @List.count_set (Option String) instBEqOfDecidableEq l[j] b l i hi
  have b1 := @List.boole_getElem_le_count (Option String) instBEqOfDecidableEq b l i hi
  rw [c1, c2, e3]
  omega

theorem swapPorts_prefix (d : Nat) (rnd : Nat → Nat) (rest : List (Option String))
    (hd : 0 < d) (n : Nat) :
    ∀ (x : Nat) (toks : List (Option String)), d < toks.length → x + n ≤ d + 1 →
      ∃ toks1, swapPorts d rnd n x (toks ++ rest) = .ok (toks1 ++ rest) ∧ toks1.Perm toks := by
  induction n with
  | zero => intro x toks _ _; exact ⟨toks, rfl, List.Perm.refl _⟩
  | succ n ih =>
    intro x toks hlen hx
    have hxl : x < toks.length := by omega
    have hyl : (rnd x % 65536) % d < toks.length :=
      Nat.lt_trans (Nat.mod_lt _ hd) hlen
    have hp := swap_perm toks x ((rnd x % 65536) % d) hxl hyl
    obtain ⟨toks1, h1, h2⟩ := ih (x + 1)
      ((toks.set x (toks.getD ((rnd x % 65536) % d) none)).set ((rnd x % 65536) % d)
        (toks.getD x none))
      (by simpa using hlen) (by omega)
    refine ⟨toks1, ?_, h2.trans hp⟩
    rw [swapPorts, if_neg (by omega)]
    simp only
    have g1 : (toks ++ rest).getD x none = toks.getD x none := by
      simp [List.getD_eq_getElem?_getD, List.getElem?_append_left hxl]
    have g2 : (toks ++ rest).getD ((rnd x % 65536) % d) none
        = toks.getD ((rnd x % 65536) % d) none := by
      simp [List.getD_eq_getElem?_getD, List.getElem?_append_left hyl]
    rw [g1, g2, List.set_append_left _ _ hxl, List.set_append_left _ _ (by simpa using hyl)]
    exact h1

/-- With rflag set and a range a-b of two or more ports, build_ports completes
for every stream of random() values, and the tokens it leaves before the NULL
terminator are a permutation of the renderings of min(a,b) .. max(a,b): none is
dropped, none duplicated. -/
theorem build_ports_random_perm (fl : Flags) (getservbyname : String → Option Nat)
    (rnd : Nat → Nat) (a b : Nat)
    (ha1 : 1 ≤ a) (ha2 : a ≤ 65535) (hb1 : 1 ≤ b) (hb2 : b ≤ 65535) (hab : a ≠ b)
    (hl : fl.lflag = false) (hr : fl.rflag = true)
    (hs : getservbyname (Nat.repr a ++ "-" ++ Nat.repr b) = none) :
    ∃ toks, build_ports fl getservbyname rnd (Nat.repr a ++ "-" ++ Nat.repr b)
        = .ok (toks ++ none :: List.replicate (PORT_MAX - 1 - (max a b - min a b)) none)
      ∧ toks.Perm
          ((List.range' (min a b) (max a b - min a b + 1)).map (fun v => some (Nat.repr v))) := by
  rw [build_ports_on_range fl getservbyname rnd a b ha1 ha2 hb1 hb2 hl hs, hr, if_pos rfl]
  have hmin : 1 ≤ min a b := by omega
  have hmm : min a b ≤ max a b := by omega
  have hmax : max a b ≤ 65535 := by omega
  rw [loadPorts_range (min a b) (max a b) hmin hmm hmax]
  exact swapPorts_prefix (max a b - min a b) rnd _ (by omega) _ 0 _ (by simp) (by omega)

theorem build_ports_random_perm_witness :
    ∃ toks, build_ports { rflag := true } (fun _ => none) (fun k => 7 * k + 3) "10-15"
        = .ok (toks ++ none :: List.replicate 65529 none)
      ∧ toks.Perm [some "10", some "11", some "12", some "13", some "14", some "15"] := by
  obtain ⟨toks, h1, h2⟩ := build_ports_random_perm { rflag := true } (fun _ => none)
    (fun k => 7 * k + 3) 10 15 (by decide) (by decide) (by decide) (by decide) (by decide)
    rfl rfl rfl
  have e1 : Nat.repr 10 ++ "-" ++ Nat.repr 15 = "10-15" := by decide
  have e2 : (List.range' (min 10 15) (max 10 15 - min 10 15 + 1)).map
      (fun v => some (Nat.repr v))
      = [some "10", some "11", some "12", some "13", some "14", some "15"] := by decide
  have e3 : PORT_MAX - 1 - (max 10 15 - min 10 15) = 65529 := by decide
  rw [e1, e3] at h1
  rw [e2] at h2
  exact ⟨toks, h1, h2⟩

/-- The three malformed specs of the specification are rejected: 0 and 65536 are
out of range, 80abc leaves trailing characters. -/
theorem build_ports_rejects_examples (fl : Flags) (rnd : Nat → Nat) :
    build_ports fl (fun _ => none) rnd "0" = .error (.errx "port range not valid")
    ∧ build_ports fl (fun _ => none) rnd "65536" = .error (.errx "port range not valid")
    ∧ build_ports fl (fun _ => none) rnd "80abc" = .error (.errx "port range not valid") := by
  have p0 : strtoul "0".data = (0, []) := by decide
  have p1 : strtoul "65536".data = (65536, []) := by decide
  have p2 : strtoul "80abc".data = (80, ['a', 'b', 'c']) := by decide
  have s0 : splitDash "0".data = none := by decide
  have s1 : splitDash "65536".data = none := by decide
  have s2 : splitDash "80abc".data = none := by decide
  have i0 : toInt 0 = 0 := by decide
  have i1 : toInt 65536 = 65536 := by decide
  have i2 : toInt 80 = 80 := by decide
  refine ⟨?_, ?_, ?_⟩
  · unfold build_ports
    simp only [s0, p0, i0]
    rfl
  · unfold build_ports
    simp only [s1, p1, i1]
    rfl
  · unfold build_ports
    simp only [s2, p2, i2]
    rfl

/-! ## The -w option on plain decimal arguments -/

theorem toDigitsCore_ne_nil (fuel : Nat) : ∀ (n : Nat) (acc : List Char),
    0 < fuel ∨ acc ≠ [] → Nat.toDigitsCore 10 fuel n acc ≠ [] := by
  induction fuel with
  | zero =>
    intro n acc h
    rcases h with h | h
    · omega
    · simpa [Nat.toDigitsCore] using h
  | succ f ih =>
    intro n acc _
    simp only [Nat.toDigitsCore]
    split
    · simp
    · exact ih _ _ (Or.inr (by simp))

theorem strtoul_toDigits (v : Nat) (h : v ≤ ULONG_MAX) :
    strtoul (Nat.toDigits 10 v) = (v, []) := by
  have hv := decValue_toDigits v
  have hne : Nat.toDigits 10 v ≠ [] := toDigitsCore_ne_nil _ _ _ (Or.inl (by omega))
  rw [strtoul_digits _ hne (toDigits_isDigit v) (by rw [hv]; exact h), hv]

/-- On the decimal rendering of v seconds the -w handling stores 1000 * v
milliseconds when v < INT_MAX / 1000 = 2147483, and ends in an error for every
larger v below 2^32; the wrap-around of the narrowing starts at 2^32. -/
theorem main_opt_w_decimal (v : Nat) :
    (v < 2147483 → main_opt_w (Nat.repr v) = .ok (1000 * (v : Int)))
    ∧ (2147483 ≤ v → v < 2 ^ 32 → ∃ msg, main_opt_w (Nat.repr v) = .error (.errx msg)) := by
  constructor
  · intro h
    unfold main_opt_w
    simp only [repr_data]
    rw [strtoul_toDigits v (by unfold ULONG_MAX ULONG_BITS; omega), toInt_small v (by omega)]
    have c1 : ¬ ((v : Int) < 0 ∨ ([] : List Char) ≠ []) := by simp
    have c2 : ¬ ((v : Int) ≥ INT_MAX / 1000) := by
      have : INT_MAX / 1000 = 2147483 := by decide
      rw [this]
      omega
    simp only [if_neg c1, if_neg c2]
    congr 1
    omega
  · intro h1 h2
    unfold main_opt_w
    simp only [repr_data]
    rw [strtoul_toDigits v (by unfold ULONG_MAX ULONG_BITS; omega)]
    by_cases hneg : toInt v < 0
    · exact ⟨"timeout cannot be negative", by simp [hneg]⟩
    · have hlt : v % 2 ^ 32 = v := Nat.mod_eq_of_lt h2
      have hv : toInt v = (v : Int) := by
        unfold toInt at hneg ⊢
        rw [hlt] at hneg ⊢
        split
        · rfl
        · rename_i h3
          rw [if_neg h3] at hneg
          omega
      have c1 : ¬ (toInt v < 0 ∨ ([] : List Char) ≠ []) := by simp [hneg]
      have c2 : toInt v ≥ INT_MAX / 1000 := by
        have : INT_MAX / 1000 = 2147483 := by decide
        rw [this, hv]
        omega
      exact ⟨"timeout too large", by simp only [if_neg c1, if_pos c2]⟩

theorem main_opt_w_decimal_witness :
    main_opt_w "30" = .ok 30000 ∧ ∃ msg, main_opt_w "2147483" = .error (.errx msg) :=
  ⟨(main_opt_w_decimal 30).1 (by decide), (main_opt_w_decimal 2147483).2 (by decide) (by decide)⟩

/-! ## End-of-file on local input -/

/-- C11: in a pass of the readwrite loop whose network half leaves the network
descriptor polled (state s1), with standard input attached, end-of-file on
local input (a read of zero bytes) or a hang-up on it stops polling local
input, leaves the network read side as it is so that the loop goes on with the
following events, and does exactly one of two things: with qflag > 0 it arms
the alarm for qflag seconds and leaves the write half alone; otherwise it
shuts down the network write half and leaves the alarm alone.  Nothing is
written. -/
theorem readwrite_stdin_eof (fl : Flags) (obuf1 : Nat) (ev : RWEvent) (evs : List RWEvent)
    (s s1 : RWState) (hloop : s.pfd0_fd ≠ -1) (hpoll : 0 < ev.pollRet)
    (hnet : readwrite_net fl obuf1 ev s = .next s1) (hopen : s1.pfd0_fd ≠ -1)
    (hd : fl.dflag = false)
    (heof : ((polled s1.pfd1_fd ev.stdin).pollin = true ∧ ev.stdinRead = .got [])
      ∨ ((polled s1.pfd1_fd ev.stdin).pollin = false
          ∧ (polled s1.pfd1_fd ev.stdin).pollhup = true)) :
    readwrite_loop fl obuf1 (ev :: evs) s = readwrite_loop fl obuf1 evs (shutdown_wr fl s1)
    ∧ readwrite_loop fl obuf1 [ev] s = .waiting (shutdown_wr fl s1)
    ∧ (shutdown_wr fl s1).pfd1_fd = -1
    ∧ (shutdown_wr fl s1).pfd0_fd = s1.pfd0_fd
    ∧ (shutdown_wr fl s1).shutRd = s1.shutRd
    ∧ (shutdown_wr fl s1).netOut = s1.netOut
    ∧ (fl.qflag > 0 →
        (shutdown_wr fl s1).alarm = some fl.qflag ∧ (shutdown_wr fl s1).shutWr = s1.shutWr)
    ∧ (¬ fl.qflag > 0 →
        (shutdown_wr fl s1).shutWr = true ∧ (shutdown_wr fl s1).alarm = s1.alarm) := by
  have h1 : ¬ ev.pollRet < 0 := by omega
  have h2 : ¬ ev.pollRet = 0 := by omega
  have hk := shutdown_wr_keeps_net fl s1
  have hst : readwrite_stdin fl ev s1 = .next (shutdown_wr fl s1) := by
    unfold readwrite_stdin
    rcases heof with ⟨hin, hread⟩ | ⟨hin, hhup⟩
    · simp [hd, hin, hread]
    · simp [hd, hin, hhup]
  have hstep : ∀ l, readwrite_loop fl obuf1 (ev :: l) s
      = readwrite_loop fl obuf1 l (shutdown_wr fl s1) := by
    intro l
    rw [readwrite_loop, if_pos hloop]
    unfold readwrite_iter
    rw [if_neg h1, if_neg h2, hnet]
    simp only
    rw [hst]
  refine ⟨hstep evs, ?_, hk.2.2, hk.1, hk.2.1, ?_, ?_, ?_⟩
  · rw [hstep []]
    simp [readwrite_loop, hk.1, hopen]
  · unfold shutdown_wr; split <;> rfl
  · intro hq
    unfold shutdown_wr
    rw [if_pos hq]
    exact ⟨rfl, rfl⟩
  · intro hq
    unfold shutdown_wr
    rw [if_neg hq]
    exact ⟨rfl, rfl⟩

theorem readwrite_stdin_eof_witness :
    (readwrite_loop { qflag := 2 } 0 [{ stdin := { pollin := true }, stdinRead := .got [] }]
        { pfd0_fd := 3, pfd1_fd := 0, buf := fun _ => 0, netRoom := 100, outRoom := 100 }
      = .waiting (shutdown_wr { qflag := 2 }
          { pfd0_fd := 3, pfd1_fd := 0, buf := fun _ => 0, netRoom := 100, outRoom := 100 }))
    ∧ (shutdown_wr { qflag := 0 }
        { pfd0_fd := 3, pfd1_fd := 0, buf := fun _ => 0, netRoom := 100, outRoom := 100 }).shutWr
      = true :=
  ⟨(readwrite_stdin_eof { qflag := 2 } 0 { stdin := { pollin := true }, stdinRead := .got [] } []
      { pfd0_fd := 3, pfd1_fd := 0, buf := fun _ => 0, netRoom := 100, outRoom := 100 }
      { pfd0_fd := 3, pfd1_fd := 0, buf := fun _ => 0, netRoom := 100, outRoom := 100 }
      (by decide) (by decide) rfl (by decide) rfl (Or.inl ⟨rfl, rfl⟩)).2.1,
   ((readwrite_stdin_eof { qflag := 0 } 0 { stdin := { pollhup := true } } []
      { pfd0_fd := 3, pfd1_fd := 0, buf := fun _ => 0, netRoom := 100, outRoom := 100 }
      { pfd0_fd := 3, pfd1_fd := 0, buf := fun _ => 0, netRoom := 100, outRoom := 100 }
      (by decide) (by decide) rfl (by decide) rfl (Or.inr ⟨rfl, rfl⟩)).2.2.2.2.2.2.2
      (by decide)).1⟩

/-! ## What atelnet reads and where its scan stops -/

/-- C12 (failing input): when the introducer IAC is the only byte handed to
atelnet (size 1), or is followed by one byte only (size 2), the body still
reads the bytes at indices 1 and 2, at or beyond size, and writes one reply
whose option byte is the byte at index 2, outside the buffer (and whose code
is chosen from the byte at index 1). -/
theorem atelnet_reads_past_end (buf : Nat → Nat) (obuf1 size : Nat)
    (h0 : buf 0 = IAC) (hs : size = 1 ∨ size = 2) :
    atelnet_reads buf size = [0, 1, 2]
    ∧ atelnet buf size obuf1
        = [[IAC, if buf 1 = DO ∨ buf 1 = DONT then WONT
                 else if buf 1 = WILL ∨ buf 1 = WONT then DONT else obuf1, buf 2]]
    ∧ ∃ i ∈ atelnet_reads buf size, size ≤ i := by
  have hr : atelnet_reads buf size = [0, 1, 2] := by
    rcases hs with rfl | rfl <;>
      simp [atelnet_reads, atelnet_reads_loop, h0]
  refine ⟨hr, ?_, ⟨2, by rw [hr]; simp, by omega⟩⟩
  rcases hs with rfl | rfl <;>
    simp [atelnet, atelnet_loop, h0]

theorem atelnet_reads_past_end_witness :
    atelnet_reads (fun i => [255, 253, 9].getD i 0) 1 = [0, 1, 2]
    ∧ atelnet (fun i => [255, 253, 9].getD i 0) 1 77 = [[255, 252, 9]]
    ∧ ∃ i ∈ atelnet_reads (fun i => [255, 253, 9].getD i 0) 1, 1 ≤ i :=
  atelnet_reads_past_end (fun i => [255, 253, 9].getD i 0) 77 1 rfl (Or.inl rfl)

/-- Every index atelnet reads is below size + 2: the over-read is of at most two
bytes. -/
theorem atelnet_reads_loop_bound (buf : Nat → Nat) (size : Nat) :
    ∀ (fuel p : Nat), ∀ i ∈ atelnet_reads_loop buf size fuel p, i < size + 2 := by
  intro fuel
  induction fuel with
  | zero => intro p i hi; simp [atelnet_reads_loop] at hi
  | succ f ih =>
    intro p i hi
    rw [atelnet_reads_loop] at hi
    split at hi
    · rename_i hp
      split at hi
      · simp at hi; omega
      · simp only [List.mem_cons] at hi
        rcases hi with rfl | rfl | rfl | hi
        · omega
        · omega
        · omega
        · exact ih _ _ hi
    · simp at hi

/-- C13 (failing input): when the chunk handed to atelnet starts with a byte
other than IAC, the scan stops at that byte: index 0 is the only byte
inspected and nothing is written, whatever negotiation triplets follow. -/
theorem atelnet_stops_at_data (buf : Nat → Nat) (obuf1 size : Nat)
    (hs : 0 < size) (h0 : buf 0 ≠ IAC) :
    atelnet buf size obuf1 = [] ∧ atelnet_reads buf size = [0] := by
  obtain ⟨n, rfl⟩ : ∃ n, size = n + 1 := ⟨size - 1, by omega⟩
  constructor
  · simp [atelnet, atelnet_loop, h0]
  · simp [atelnet_reads, atelnet_reads_loop, h0]

theorem atelnet_stops_at_data_witness :
    atelnet (fun i => [65, 255, 253, 1].getD i 0) 4 77 = []
    ∧ atelnet_reads (fun i => [65, 255, 253, 1].getD i 0) 4 = [0] :=
  atelnet_stops_at_data (fun i => [65, 255, 253, 1].getD i 0) 77 4 (by decide) (by decide)

/-- In readwrite with tflag set, a network chunk made of one data byte followed
by the triplet IAC DO 1 is copied to standard output and nothing is written back
to the network, while the same triplet at the start of a chunk is answered. -/
theorem readwrite_net_telnet_after_data :
    (∃ s1, readwrite_net { tflag := true } 77
        { net := { pollin := true }, netRead := .got [65, 255, 253, 1] }
        { pfd0_fd := 3, pfd1_fd := 0, buf := fun _ => 0, netRoom := 100, outRoom := 100 }
          = .next s1 ∧ s1.netOut = [] ∧ s1.stdOut = [65, 255, 253, 1])
    ∧ (∃ s1, readwrite_net { tflag := true } 77
        { net := { pollin := true }, netRead := .got [255, 253, 1, 65] }
        { pfd0_fd := 3, pfd1_fd := 0, buf := fun _ => 0, netRoom := 100, outRoom := 100 }
          = .next s1 ∧ s1.netOut = [255, 252, 1] ∧ s1.stdOut = [255, 253, 1, 65]) := by
  constructor
  · exact ⟨_, rfl, by decide, by decide⟩
  · exact ⟨_, rfl, by decide, by decide⟩

/-! ## connect_with_timeout and the file status flags -/

/-- C14 (failing path): after the switch to non-blocking mode has succeeded, a
connect that is in progress followed by a select that ends with 0 makes
connect_with_timeout return CONNECTION_TIMEOUT with the descriptor still
carrying orig_flags | O_NONBLOCK: this return comes before the fcntl that
restores the flags. -/
theorem connect_with_timeout_timeout_flags (env : ConnEnv) (ctimeout : Int)
    (hset : env.setOk = true) (hc : env.connectRet ≠ 0)
    (he : env.connectErrno = EINPROGRESS) (hsel : select_loop env.selects = some 0) :
    connect_with_timeout env ctimeout
      = .returned CONNECTION_TIMEOUT (env.flags ||| O_NONBLOCK) := by
  unfold connect_with_timeout
  simp [hset, hc, he, hsel]

theorem connect_with_timeout_timeout_flags_witness :
    connect_with_timeout
        { flags := 2, connectRet := -1, connectErrno := 36, selects := [(-1, 4), (0, 0)] } 3000
      = .returned CONNECTION_TIMEOUT (2 ||| O_NONBLOCK)
    ∧ 2 ||| O_NONBLOCK = 6 :=
  ⟨connect_with_timeout_timeout_flags
      { flags := 2, connectRet := -1, connectErrno := 36, selects := [(-1, 4), (0, 0)] } 3000
      rfl (by decide) rfl rfl,
   by decide⟩

/-- On every other path by which connect_with_timeout returns (any result code
but CONNECTION_TIMEOUT), the descriptor carries its original file status flags
at the return, provided the restoring fcntl succeeds; without the switch to
non-blocking mode the flags were never changed. -/
theorem connect_with_timeout_restores (env : ConnEnv) (ctimeout code : Int) (flags : Nat)
    (hr : env.restoreOk = true)
    (h : connect_with_timeout env ctimeout = .returned code flags)
    (hcode : code ≠ CONNECTION_TIMEOUT) : flags = env.flags := by
  unfold connect_with_timeout at h
  simp only [hr, if_true] at h
  split at h
  · split at h <;> (cases h; rfl)
  · split at h
    · split at h
      · cases h
      · split at h
        · cases h
        · split at h
          · cases h
            exact absurd rfl hcode
          · split at h
            · cases h
            · cases h; rfl
    · cases h; rfl

theorem connect_with_timeout_restores_witness :
    connect_with_timeout { flags := 6, connectRet := -1, connectErrno := 61 } 0
      = .returned CONNECTION_FAILED 6
    ∧ (6 : Nat) = ({ flags := 6, connectRet := -1, connectErrno := 61 } : ConnEnv).flags :=
  ⟨rfl, connect_with_timeout_restores { flags := 6, connectRet := -1, connectErrno := 61 }
    0 CONNECTION_FAILED 6 rfl rfl (by decide)⟩

/-! ## Where atelnet stays inside the buffer -/

theorem atelnet_reads_loop_multiple (buf : Nat → Nat) (size : Nat) :
    ∀ (fuel p : Nat), (∃ m, size = p + 3 * m) →
      ∀ i ∈ atelnet_reads_loop buf size fuel p, i < size := by
  intro fuel
  induction fuel with
  | zero => intro p _ i hi; simp [atelnet_reads_loop] at hi
  | succ f ih =>
    intro p hm i hi
    obtain ⟨m, hm⟩ := hm
    rw [atelnet_reads_loop] at hi
    split at hi
    · rename_i hp
      split at hi
      · simp at hi; omega
      · simp only [List.mem_cons] at hi
        rcases hi with rfl | rfl | rfl | hi
        · omega
        · omega
        · omega
        · exact ih (p + 3) ⟨m - 1, by omega⟩ i hi
    · simp at hi

/-- The scan of atelnet advances three bytes at a time from index 0, so on a
buffer whose size is a multiple of three every byte it reads lies inside the
buffer; in general it reads at most two bytes past the end. -/
theorem atelnet_reads_bound (buf : Nat → Nat) (size : Nat) :
    (∀ i ∈ atelnet_reads buf size, i < size + 2)
    ∧ (size % 3 = 0 → ∀ i ∈ atelnet_reads buf size, i < size) := by
  constructor
  · exact atelnet_reads_loop_bound buf size size 0
  · intro h
    exact atelnet_reads_loop_multiple buf size size 0 ⟨size / 3, by omega⟩

/-! ## A network write that fails -/

/-- A chunk read from standard input that the network does not accept: when the
write fails with EPIPE the process is killed by SIGPIPE, otherwise readwrite
returns; in both cases no byte of the chunk is relayed. -/
theorem readwrite_failed_net_write :
    (∃ s1, readwrite_loop {} 0
        [{ stdin := { pollin := true }, stdinRead := .got [104, 105], netEpipe := true }]
        { pfd0_fd := 3, pfd1_fd := 0, buf := fun _ => 0, netRoom := 0, outRoom := 100 }
          = .killed s1 ∧ s1.netOut = [])
    ∧ (∃ s1, readwrite_loop {} 0
        [{ stdin := { pollin := true }, stdinRead := .got [104, 105] }]
        { pfd0_fd := 3, pfd1_fd := 0, buf := fun _ => 0, netRoom := 0, outRoom := 100 }
          = .returned s1 ∧ s1.netOut = []) := by
  constructor
  · exact ⟨_, rfl, by decide⟩
  · exact ⟨_, rfl, by decide⟩

end Netcat
